import Mathlib

/-!
# gorm-expect: the row builders and the expectation orchestrator of `query.go`

A shallow embedding of `SqlmockQueryExpectation.Returns`, `getRelationRows` and
`getDestRows`.

* Go values (`interface{}` and `reflect.Value`) are the inductive `GoValue`; a value
  carries enough of its type for `reflect.Value.Type`, `reflect.New` and
  `reflect.DeepEqual` to be computed.
* A Go panic is an `Except.error` carrying a `Panic`.
* The ORM's struct parser (tags and naming conventions) is the parameter `ORM`; the
  scope methods built on it (`GetModelStruct`, `Fields`, `FieldByName`,
  `PrimaryKeyValue`) follow jinzhu/gorm.
* A mock row-set is `Rows`; `Rows.AddRow` follows go-sqlmock: it refuses a row
  whose length is not the number of columns, passes every value through the driver's
  default converter, refuses a value the converter rejects, and stores the converted
  values.
* The ORM handle and its method set are abstract: which methods it has, with which
  signature, and what a replayed call does to the handle and the recorder are fields
  of `ORM`.
* `getRowForFields`, `indirect`, the adapter and `reset` live in the companion file
  of the repository and are modelled from the specification.
-/

namespace GormExpect

/-! ## Go values, types and reflection -/

/-- The kinds of `reflect.Kind`. -/
inductive reflect.Kind where
  | Invalid | Bool
  | Int | Int8 | Int16 | Int32 | Int64
  | Uint | Uint8 | Uint16 | Uint32 | Uint64 | Uintptr
  | Float32 | Float64 | Complex64 | Complex128
  | Array | Chan | Func | Interface | Map | Ptr | Slice | String | Struct
  | UnsafePointer
  deriving DecidableEq, Repr

/-- The integer kinds of Go. -/
inductive IntKind where
  | Int | Int8 | Int16 | Int32 | Int64
  | Uint | Uint8 | Uint16 | Uint32 | Uint64 | Uintptr
  deriving DecidableEq, Repr

/-- The `reflect.Kind` of an integer kind. -/
def IntKind.kind : IntKind → reflect.Kind
  | .Int => .Int
  | .Int8 => .Int8
  | .Int16 => .Int16
  | .Int32 => .Int32
  | .Int64 => .Int64
  | .Uint => .Uint
  | .Uint8 => .Uint8
  | .Uint16 => .Uint16
  | .Uint32 => .Uint32
  | .Uint64 => .Uint64
  | .Uintptr => .Uintptr

/-- The width in bits of an integer kind (on a 64-bit platform). -/
def IntKind.bits : IntKind → Nat
  | .Int8 => 8
  | .Uint8 => 8
  | .Int16 => 16
  | .Uint16 => 16
  | .Int32 => 32
  | .Uint32 => 32
  | _ => 64

/-- Whether an integer kind is signed. -/
def IntKind.signed : IntKind → Bool
  | .Int => true
  | .Int8 => true
  | .Int16 => true
  | .Int32 => true
  | .Int64 => true
  | _ => false

/-- The number an integer of kind `k` written `n` holds: `n` read modulo the width of
the kind, in two's complement for a signed kind (`reflect.Value.Int`, `Uint`). -/
def readInt (k : IntKind) (n : Int) : Int :=
  if k.signed then (n + 2 ^ (k.bits - 1)) % 2 ^ k.bits - 2 ^ (k.bits - 1)
  else n % 2 ^ k.bits

/-- The Go conversion `int64(u)` of an unsigned 64-bit number: it wraps a number with
the high bit set to a negative one. -/
def toInt64 (u : Int) : Int :=
  (u + 2 ^ 63) % 2 ^ 64 - 2 ^ 63

/-- Go types (`reflect.Type`): booleans, integers, strings, the empty interface, named
structs with their fields in declaration order, slices and pointers. -/
inductive GoType where
  | bool
  | int (k : IntKind)
  | string
  | iface
  | struct (name : String) (fields : List (String × GoType))
  | slice (elem : GoType)
  | ptr (elem : GoType)
  deriving Repr

/-- Go values, as held by an `interface{}` or a `reflect.Value`. `invalid` is the nil
interface and the zero `reflect.Value`. A nil slice and a nil pointer record their
element type; an integer records its kind and holds `readInt k n`. A struct is a
plain struct: it is not a `time.Time` and has no `Value` method. -/
inductive GoValue where
  | invalid
  | bool (b : Bool)
  | int (k : IntKind) (n : Int)
  | string (s : String)
  | struct (name : String) (fields : List (String × GoValue))
  | nilSlice (elem : GoType)
  | slice (elem : GoType) (elems : List GoValue)
  | nilPtr (elem : GoType)
  | ptr (target : GoValue)
  deriving Repr

/-- The ways the modelled code can panic. -/
inductive Panic where
  /-- Indexing a slice out of range (`stmts[0]` on an empty list). -/
  | indexOutOfRange
  /-- Reading through a nil pointer (`relation.Kind`, `q.scope`). -/
  | nilPointerDereference
  /-- A failed type assertion (`relation.JoinTableHandler.(*gorm.JoinTableHandler)`). -/
  | interfaceConversion
  /-- A `reflect.Value` method called on the zero Value. -/
  | reflectZeroValue
  /-- A `reflect.Value` method called on a value of a kind it does not accept. -/
  | reflectKind (k : reflect.Kind)
  /-- The call `reflect.Type.Elem` on a type that has no element type. -/
  | reflectTypeElem
  /-- The panic of sqlmock: "Expected number of values to match number of columns". -/
  | addRowValues
  /-- The panic of sqlmock on a value the driver converter rejects. -/
  | addRowConvert
  /-- The panic of line 216: "Can only get rows for slice, struct, int/uint, or nil". -/
  | unsupportedKind (k : reflect.Kind)
  deriving DecidableEq, Repr

/-- The method `reflect.Value.Kind`. -/
def GoValue.Kind : GoValue → reflect.Kind
  | .invalid => .Invalid
  | .bool _ => .Bool
  | .int k _ => k.kind
  | .string _ => .String
  | .struct _ _ => .Struct
  | .nilSlice _ => .Slice
  | .slice _ _ => .Slice
  | .nilPtr _ => .Ptr
  | .ptr _ => .Ptr

mutual
/-- The dynamic type of a value; a nil interface inside a struct has type `iface`. -/
def GoValue.typeOf : GoValue → GoType
  | .invalid => .iface
  | .bool _ => .bool
  | .int k _ => .int k
  | .string _ => .string
  | .struct name fields => .struct name (GoValue.typeOfFields fields)
  | .nilSlice elem => .slice elem
  | .slice elem _ => .slice elem
  | .nilPtr elem => .ptr elem
  | .ptr target => .ptr (GoValue.typeOf target)
/-- The types of the fields of a struct value. -/
def GoValue.typeOfFields : List (String × GoValue) → List (String × GoType)
  | [] => []
  | (name, v) :: rest => (name, GoValue.typeOf v) :: GoValue.typeOfFields rest
end

mutual
/-- The zero value of a type: `reflect.New(t).Elem()`. -/
def GoType.zero : GoType → GoValue
  | .bool => .bool false
  | .int k => .int k 0
  | .string => .string ""
  | .iface => .invalid
  | .struct name fields => .struct name (GoType.zeroFields fields)
  | .slice elem => .nilSlice elem
  | .ptr elem => .nilPtr elem
/-- The zero values of the fields of a struct type. -/
def GoType.zeroFields : List (String × GoType) → List (String × GoValue)
  | [] => []
  | (name, t) :: rest => (name, GoType.zero t) :: GoType.zeroFields rest
end

mutual
/-- Identity of types. -/
def GoType.beq : GoType → GoType → Bool
  | .bool, .bool => true
  | .int k, .int k' => k == k'
  | .string, .string => true
  | .iface, .iface => true
  | .struct n fs, .struct n' fs' => n == n' && GoType.beqFields fs fs'
  | .slice e, .slice e' => GoType.beq e e'
  | .ptr e, .ptr e' => GoType.beq e e'
  | _, _ => false
/-- Identity of field lists. -/
def GoType.beqFields : List (String × GoType) → List (String × GoType) → Bool
  | [], [] => true
  | (n, t) :: fs, (n', t') :: fs' => n == n' && GoType.beq t t' && GoType.beqFields fs fs'
  | _, _ => false
end

mutual
/-- The function `reflect.DeepEqual`: the two values have identical types and are equal
component by component; a nil slice is not deeply equal to an empty non-nil slice,
and two pointers are deeply equal when what they point to is. -/
def reflect.DeepEqual : GoValue → GoValue → Bool
  | .invalid, .invalid => true
  | .bool b, .bool b' => b == b'
  | .int k n, .int k' n' => k == k' && readInt k n == readInt k' n'
  | .string s, .string s' => s == s'
  | .struct n fs, .struct n' fs' => n == n' && reflect.DeepEqualFields fs fs'
  | .nilSlice e, .nilSlice e' => GoType.beq e e'
  | .slice e xs, .slice e' xs' => GoType.beq e e' && reflect.DeepEqualList xs xs'
  | .nilPtr e, .nilPtr e' => GoType.beq e e'
  | .ptr t, .ptr t' => reflect.DeepEqual t t'
  | _, _ => false
/-- Deep equality of the fields of two structs. -/
def reflect.DeepEqualFields : List (String × GoValue) → List (String × GoValue) → Bool
  | [], [] => true
  | (n, v) :: fs, (n', v') :: fs' =>
      n == n' && reflect.DeepEqual v v' && reflect.DeepEqualFields fs fs'
  | _, _ => false
/-- Deep equality of the elements of two slices. -/
def reflect.DeepEqualList : List GoValue → List GoValue → Bool
  | [], [] => true
  | v :: vs, v' :: vs' => reflect.DeepEqual v v' && reflect.DeepEqualList vs vs'
  | _, _ => false
end

/-- The method `reflect.Value.Interface`: panics on the zero Value. -/
def GoValue.Interface : GoValue → Except Panic GoValue
  | .invalid => .error .reflectZeroValue
  | v => .ok v

/-- The method `reflect.Value.Type`: panics on the zero Value. -/
def GoValue.Type : GoValue → Except Panic GoType
  | .invalid => .error .reflectZeroValue
  | v => .ok v.typeOf

/-- The method `reflect.Type.Elem`: the element type of a slice or pointer type; panics
on the other types of this model. -/
def GoType.Elem : GoType → Except Panic GoType
  | .slice elem => .ok elem
  | .ptr elem => .ok elem
  | _ => .error .reflectTypeElem

/-- The function `reflect.New(t)` followed by `Interface()`: a pointer to a fresh zero
value of `t`. -/
def reflect.New (t : GoType) : GoValue :=
  .ptr t.zero

/-- The values `v.Index(0).Interface()`, ..., `v.Index(v.Len()-1).Interface()` of a
slice, in order. `reflect.Value.Len` panics on a value that has no length; of the
kinds of this model only slices (and strings, which never reach these calls) have
one, and a nil slice has length 0. -/
def GoValue.elements : GoValue → Except Panic (List GoValue)
  | .nilSlice _ => .ok []
  | .slice _ elems => .ok elems
  | v => .error (.reflectKind v.Kind)

/-- Lookup of a field value by name in the fields of a struct; the zero Value when no
field has that name. -/
def lookupField : List (String × GoValue) → String → GoValue
  | [], _ => .invalid
  | (n, v) :: rest, name => if n = name then v else lookupField rest name

/-- The method `reflect.Value.FieldByName`: the field of a struct with the given name,
the zero Value when there is none; panics when the value is not a struct. -/
def GoValue.FieldByName : GoValue → String → Except Panic GoValue
  | .struct _ fields, name => .ok (lookupField fields name)
  | v, _ => .error (.reflectKind v.Kind)

/-- Modelled from the spec: `indirect` of the companion file, the dereferencing of
section 4.3 ("if the output, after dereferencing, is the invalid/nil value"): pointers
are followed until a non-pointer is reached; a nil pointer gives the invalid value. -/
def indirect : GoValue → GoValue
  | .ptr target => indirect target
  | .nilPtr _ => .invalid
  | v => v

/-! ## The ORM: schema, scope and fields -/

/-- A foreign key of a join table (`gorm.JoinTableForeignKey`). -/
structure JoinTableForeignKey where
  DBName : String
  AssociationDBName : String
  deriving Repr

/-- One side of a join table (`gorm.JoinTableSource`). -/
structure JoinTableSource where
  ModelType : GoType
  ForeignKeys : List JoinTableForeignKey
  deriving Repr

/-- The default join-table handler (`gorm.JoinTableHandler`). -/
structure JoinTableHandler where
  TableName : String
  Source : JoinTableSource
  Destination : JoinTableSource
  deriving Repr

/-- The relationship of a field (`gorm.Relationship`). `JoinTableHandler` is `none`
when the interface does not hold a `*gorm.JoinTableHandler`. -/
structure Relationship where
  Kind : String
  JoinTableHandler : Option JoinTableHandler
  deriving Repr

/-- The schema entry of a struct field (`gorm.StructField`); a nil `*Relationship` is
`none`. -/
structure StructField where
  Name : String
  DBName : String
  IsPrimaryKey : Bool
  IsNormal : Bool
  Relationship : Option Relationship
  deriving Repr

/-- A schema entry together with the current value of the field (`gorm.Field`). -/
structure Field extends StructField where
  Field : GoValue
  deriving Repr

/-- A recorded statement (`Stmt`): the SQL text and the preload tag, empty when the
statement is not a preload query. -/
structure Stmt where
  sql : String
  preload : String
  deriving DecidableEq, Repr

/-- The recorder of the expecter. -/
structure Recorder where
  stmts : List Stmt
  deriving Repr

/-- The ORM handle (`*gorm.DB`) as `callMethods` touches it: the values stored with
`Set` and the names of the callbacks registered on the query chain. -/
structure GormDB where
  values : List (String × GoValue)
  queryCallbacks : List String
  deriving Repr

/-- The signature of a method of the ORM handle, as the type switch of `callMethods`
tells them apart. -/
inductive MethodSignature where
  /-- The signature `func(interface{}) *gorm.DB`. -/
  | unary
  /-- The signature `func(interface{}, ...interface{}) *gorm.DB`. -/
  | variadic
  /-- Any other signature. -/
  | other
  deriving DecidableEq, Repr

/-- What the ORM library does: the schema it derives for each struct type from
declarations and naming conventions, the column-name form of an identifier, the
methods of its handle (`none` for a name that is no method), and what calling a method
of the handle with the given arguments does to the handle and to the recorder (the call
itself is taken to return). -/
structure ORM where
  parseStruct : String → List (String × GoType) → List StructField
  ToDBName : String → String
  methodSignature : String → Option MethodSignature
  invoke : String → List GoValue → GormDB × Recorder → GormDB × Recorder

/-- The scope over a model value (`gorm.Scope`). -/
structure Scope where
  Value : GoValue
  deriving Repr

/-- The call `(&gorm.Scope{}).New(value)`. -/
def Scope.New (value : GoValue) : Scope :=
  ⟨value⟩

/-- The loop of `GetModelStruct` that strips slice and pointer types. -/
def GoType.deref : GoType → GoType
  | .slice elem => GoType.deref elem
  | .ptr elem => GoType.deref elem
  | t => t

/-- The struct fields of `Scope.GetModelStruct`: empty for a nil value and for a
value whose type, stripped of slices and pointers, is not a struct; the parsed schema
of the struct type otherwise. -/
def Scope.GetModelStruct (orm : ORM) (scope : Scope) : List StructField :=
  match scope.Value with
  | .invalid => []
  | v =>
    match v.typeOf.deref with
    | .struct name fields => orm.parseStruct name fields
    | _ => []

/-- The method `Scope.Fields`: one field per schema entry; when the dereferenced scope
value is a struct the field carries the value found under the entry's name, otherwise
its value is the zero Value. -/
def Scope.Fields (orm : ORM) (scope : Scope) : List Field :=
  (scope.GetModelStruct orm).map fun structField =>
    match indirect scope.Value with
    | .struct _ fields => { toStructField := structField, Field := lookupField fields structField.Name }
    | _ => { toStructField := structField, Field := .invalid }

/-- The loop of `Scope.FieldByName`: the first field whose name or column name is
`name`; failing that, the last field whose column name is `dbName`. -/
def fieldByNameLoop (name dbName : String) : List Field → Option Field → Option Field
  | [], mostMatchedField => mostMatchedField
  | field :: rest, mostMatchedField =>
    if field.Name = name ∨ field.DBName = name then some field
    else if field.DBName = dbName then fieldByNameLoop name dbName rest (some field)
    else fieldByNameLoop name dbName rest mostMatchedField

/-- The method `Scope.FieldByName`. -/
def Scope.FieldByName (orm : ORM) (scope : Scope) (name : String) : Option Field :=
  fieldByNameLoop name (orm.ToDBName name) (scope.Fields orm) none

/-- The method `Scope.PrimaryField`: the field named `id` when there are several primary
fields and it exists, the first primary field otherwise. -/
def Scope.PrimaryField (orm : ORM) (scope : Scope) : Option Field :=
  match (scope.Fields orm).filter (fun f => f.IsPrimaryKey) with
  | [] => none
  | [field] => some field
  | field :: _ :: _ =>
    match scope.FieldByName orm "id" with
    | some idField => some idField
    | none => some field

/-- The method `Scope.PrimaryKeyValue`: the value of the primary field when it is valid,
the integer 0 otherwise. -/
def Scope.PrimaryKeyValue (orm : ORM) (scope : Scope) : GoValue :=
  match scope.PrimaryField orm with
  | some field =>
    match field.Field with
    | .invalid => .int .Int 0
    | v => v
  | none => .int .Int 0

/-! ## The mock driver -/

/-- A mock row-set (`sqlmock.Rows`): the column names and the rows added so far. -/
structure Rows where
  cols : List String
  rows : List (List GoValue)
  deriving Repr

/-- The function `sqlmock.NewRows`. -/
def sqlmock.NewRows (columns : List String) : Rows :=
  { cols := columns, rows := [] }

/-- The method `driver.DefaultParameterConverter.ConvertValue`. A nil, a boolean, a
string, an `int64` and a byte slice are driver values and are returned as they are; a
nil pointer converts to nil and a pointer to what its target converts to; a signed
integer converts to the `int64` of its number; a `uint`, `uint8`, `uint16` or `uint32`
converts to `int64(u)`, which wraps; a `uint64` with the high bit set is rejected; a
`uintptr`, a struct and any other slice are rejected (`none`). -/
def driver.ConvertValue : GoValue → Option GoValue
  | .invalid => some .invalid
  | .bool b => some (.bool b)
  | .string s => some (.string s)
  | .int .Int64 n => some (.int .Int64 n)
  | .int .Int n => some (.int .Int64 (readInt .Int n))
  | .int .Int8 n => some (.int .Int64 (readInt .Int8 n))
  | .int .Int16 n => some (.int .Int64 (readInt .Int16 n))
  | .int .Int32 n => some (.int .Int64 (readInt .Int32 n))
  | .int .Uint n => some (.int .Int64 (toInt64 (readInt .Uint n)))
  | .int .Uint8 n => some (.int .Int64 (toInt64 (readInt .Uint8 n)))
  | .int .Uint16 n => some (.int .Int64 (toInt64 (readInt .Uint16 n)))
  | .int .Uint32 n => some (.int .Int64 (toInt64 (readInt .Uint32 n)))
  | .int .Uint64 n =>
    if readInt .Uint64 n ≥ 2 ^ 63 then none else some (.int .Int64 (readInt .Uint64 n))
  | .int .Uintptr _ => none
  | .struct _ _ => none
  | .nilSlice (.int .Uint8) => some (.nilSlice (.int .Uint8))
  | .nilSlice _ => none
  | .slice (.int .Uint8) elems => some (.slice (.int .Uint8) elems)
  | .slice _ _ => none
  | .nilPtr _ => some .invalid
  | .ptr target => driver.ConvertValue target

/-- The conversion loop of `Rows.AddRow`: every value of the row goes through the
converter; the first value the converter rejects makes `AddRow` panic. -/
def convertRow : List GoValue → Except Panic (List GoValue)
  | [] => .ok []
  | v :: rest =>
    match driver.ConvertValue v with
    | none => .error .addRowConvert
    | some converted =>
      match convertRow rest with
      | .error e => .error e
      | .ok row => .ok (converted :: row)

/-- The method `Rows.AddRow`: panics when the number of values is not the number of
columns, panics when the converter rejects a value, appends the row of the converted
values otherwise. -/
def Rows.AddRow (r : Rows) (values : List GoValue) : Except Panic Rows :=
  if values.length ≠ r.cols.length then .error .addRowValues
  else
    match convertRow values with
    | .error e => .error e
    | .ok row => .ok { r with rows := r.rows ++ [row] }

/-- Modelled from the spec: `getRowForFields` of the companion file, the Field/Row
Extractor of section 4.1: the values of only the fields flagged as normal columns, in
schema order. -/
def getRowForFields (fields : List Field) : List GoValue :=
  (fields.filter fun field => field.IsNormal).map fun field => field.Field

/-! ## Recorder, adapter and expecter -/

/-- A query expectation registered on the mock adapter, with the row-set bound to it;
`none` when no row-set is bound (also when a nil `*sqlmock.Rows` is bound). -/
structure ExpectedQuery where
  query : Stmt
  rows : Option Rows
  deriving Repr

/-- The no-op execution path of the expecter. -/
structure NoopController where
  returnNilRows : Bool
  deriving Repr

/-- Modelled from the spec: the mock adapter of the companion file (section 6: "for
each statement, a call binding an expected-query matcher to a row-set"): the query
expectations registered so far, in registration order. -/
structure Adapter where
  expectations : List ExpectedQuery
  deriving Repr

/-- Modelled from the spec: `adapter.ExpectQuery(stmt)` registers a query expectation
for the statement, with no row-set bound yet, and returns a handle to it. -/
def Adapter.ExpectQuery (a : Adapter) (query : Stmt) : Adapter × Nat :=
  ({ expectations := a.expectations ++ [{ query := query, rows := none }] }, a.expectations.length)

/-- Binds a row-set to the expectation at the given position of the list. -/
def bindRows (rows : Option Rows) : Nat → List ExpectedQuery → List ExpectedQuery
  | _, [] => []
  | 0, e :: rest => { e with rows := rows } :: rest
  | n + 1, e :: rest => e :: bindRows rows n rest

/-- Modelled from the spec: `expectation.Returns(rows)` binds the row-set to the
expectation behind the handle. -/
def Adapter.Returns (a : Adapter) (expectation : Nat) (rows : Option Rows) : Adapter :=
  { expectations := bindRows rows expectation a.expectations }

/-- The parent of a query expectation (`Expecter`): the parts `Returns` reads and
writes. The map `callmap` of deferred calls is the list of its entries in the order the
`range` loop of `callMethods` visits them. -/
structure Expecter where
  adapter : Adapter
  noop : NoopController
  recorder : Recorder
  gorm : GormDB
  callmap : List (String × List GoValue)
  deriving Repr

/-- Modelled from the spec: `Expecter.reset` of the companion file (section 4.4, step
6): resets the recorder's accumulated statement list. -/
def Expecter.reset (e : Expecter) : Expecter :=
  { e with recorder := { stmts := [] } }

/-- The receiver of the three methods (`SqlmockQueryExpectation`); `scope` is nil
until `Returns` sets it. -/
structure SqlmockQueryExpectation where
  parent : Expecter
  scope : Option Scope
  deriving Repr

/-! ## `query.go` -/

/-- The loop of lines 77-81 (the same loop stands at lines 98-102, 126-130 and
178-182): appends the column name of every normal field of the schema. -/
def appendNormalColumns (columns : List String) (structFields : List StructField) : List String :=
  structFields.foldl
    (fun columns field => if field.IsNormal then columns ++ [field.DBName] else columns) columns

/-- The loops of lines 132-134 and 136-138: appends the column name of every foreign
key of one side of the join table. -/
def appendForeignKeys (columns : List String) (keys : List JoinTableForeignKey) : List String :=
  keys.foldl (fun columns key => columns ++ [key.DBName]) columns

/-- The loop of lines 111-115 (the same loop stands at lines 203-207): one row per
element, built from the fields of a scope over the element. -/
def addElementRows (orm : ORM) : Rows → List GoValue → Except Panic Rows
  | rows, [] => .ok rows
  | rows, elem :: rest =>
    let scope : Scope := { Value := elem }
    let row := getRowForFields (scope.Fields orm)
    match rows.AddRow row with
    | .error e => .error e
    | .ok rows => addElementRows orm rows rest

/-- The loop of lines 149-162: one row per element, the values of the element's normal
fields followed by the primary key of the scope captured by `Returns` and the primary
key of a fresh destination model. -/
def addJoinTableRows (orm : ORM) (q : SqlmockQueryExpectation) (joinTable : JoinTableHandler) :
    Rows → List GoValue → Except Panic Rows
  | rows, [] => .ok rows
  | rows, elem :: rest =>
    let scope : Scope := { Value := elem }
    let row := getRowForFields (scope.Fields orm)
    match q.scope with
    | none => .error .nilPointerDereference
    | some qscope =>
      let sourcePk := qscope.PrimaryKeyValue orm
      let destModelType := joinTable.Destination.ModelType
      let destModelVal := reflect.New destModelType
      let destPkVal := (Scope.mk destModelVal).PrimaryKeyValue orm
      let row := row ++ [sourcePk, destPkVal]
      match rows.AddRow row with
      | .error e => .error e
      | .ok rows => addJoinTableRows orm q joinTable rows rest

/-- The method `SqlmockQueryExpectation.getRelationRows` (lines 67-171). The result is
`none` when the method returns a nil `*sqlmock.Rows`. -/
def getRelationRows (orm : ORM) (q : SqlmockQueryExpectation) (rVal : GoValue)
    (fieldName : String) (relation : Option Relationship) : Except Panic (Option Rows) :=
  match relation with
  | none => .error .nilPointerDereference
  | some relation =>
    if relation.Kind = "has_one" then do
      let value ← rVal.Interface
      let scope : Scope := { Value := value }
      let columns := appendNormalColumns [] (scope.GetModelStruct orm)
      let rows := sqlmock.NewRows columns
      let typ ← rVal.Type
      if reflect.DeepEqual value typ.zero then
        pure (some rows)
      else do
        let row := getRowForFields (scope.Fields orm)
        let rows ← rows.AddRow row
        pure (some rows)
    else if relation.Kind = "has_many" then do
      let typ ← rVal.Type
      let elem ← typ.Elem
      let scope : Scope := { Value := reflect.New elem }
      let columns := appendNormalColumns [] (scope.GetModelStruct orm)
      let rows := sqlmock.NewRows columns
      let value ← rVal.Interface
      if reflect.DeepEqual value typ.zero then
        pure (some rows)
      else do
        let elems ← rVal.elements
        if elems.length > 0 then do
          let rows ← addElementRows orm rows elems
          pure (some rows)
        else
          pure (some rows)
    else if relation.Kind = "many_to_many" then do
      let typ ← rVal.Type
      let elem ← typ.Elem
      let scope : Scope := { Value := reflect.New elem }
      match relation.JoinTableHandler with
      | none => .error .interfaceConversion
      | some joinTable => do
        let columns := appendNormalColumns [] (scope.GetModelStruct orm)
        let columns := appendForeignKeys columns joinTable.Source.ForeignKeys
        let columns := appendForeignKeys columns joinTable.Destination.ForeignKeys
        let rows := sqlmock.NewRows columns
        let value ← rVal.Interface
        if reflect.DeepEqual value typ.zero then
          pure (some rows)
        else do
          let elems ← rVal.elements
          if elems.length > 0 then do
            let rows ← addJoinTableRows orm q joinTable rows elems
            pure (some rows)
          else
            pure (some rows)
    else
      pure none

/-- The method `SqlmockQueryExpectation.getDestRows` (lines 173-220). -/
def getDestRows (orm : ORM) (q : SqlmockQueryExpectation) (out : GoValue) : Except Panic Rows :=
  let outVal := indirect out
  let columns : List String :=
    if outVal.Kind = .Slice ∨ outVal.Kind = .Struct then
      appendNormalColumns [] ((Scope.New out).GetModelStruct orm)
    else
      [] ++ ["count"]
  let rows := sqlmock.NewRows columns
  if outVal.Kind = .Invalid then
    .ok rows
  else
    match outVal.Kind with
    | .Slice => do
      let outSlice ← outVal.elements
      addElementRows orm rows outSlice
    | .Struct =>
      match q.scope with
      | none => .error .nilPointerDereference
      | some scope =>
        let row := getRowForFields (scope.Fields orm)
        rows.AddRow row
    | .Int | .Int16 | .Int32 | .Int64 | .Uint | .Uint16 | .Uint32 | .Uint64 =>
      let count := (driver.ConvertValue outVal).getD .invalid
      rows.AddRow [count]
    | k => .error (.unsupportedKind k)

/-- The loop of lines 50-59 over the statements after the first: a statement with a
non-empty preload tag whose name resolves to a field of the scope gets a query
expectation, then the relation row-set of that field of the output is computed and
bound to it. -/
def preloadLoop (orm : ORM) (q : SqlmockQueryExpectation) (scope : Scope) (outVal : GoValue) :
    Adapter → List Stmt → Except Panic Adapter
  | adapter, [] => .ok adapter
  | adapter, subQuery :: rest =>
    if subQuery.preload ≠ "" then
      match scope.FieldByName orm subQuery.preload with
      | some field =>
        let (adapter, expectation) := adapter.ExpectQuery subQuery
        match outVal.FieldByName subQuery.preload with
        | .error e => .error e
        | .ok rVal =>
          match getRelationRows orm q rVal subQuery.preload field.Relationship with
          | .error e => .error e
          | .ok rows => preloadLoop orm q scope outVal (adapter.Returns expectation rows) rest
      | none => preloadLoop orm q scope outVal adapter rest
    else
      preloadLoop orm q scope outVal adapter rest

/-- The body of the loop of lines 228-239 for one deferred call. `MethodByName` gives
the zero Value for a name that is no method of the handle, on which `Interface` panics;
a method of one of the two supported signatures is called with `args[0]`, which panics
on an empty argument list, and, for the variadic one, with `args[1:]`; a method of
another signature is reported and skipped. -/
def callMethod (orm : ORM) (state : GormDB × Recorder) (methodName : String)
    (args : List GoValue) : Except Panic (GormDB × Recorder) :=
  match orm.methodSignature methodName with
  | none => .error .reflectZeroValue
  | some .unary =>
    match args with
    | [] => .error .indexOutOfRange
    | arg :: _ => .ok (orm.invoke methodName [arg] state)
  | some .variadic =>
    match args with
    | [] => .error .indexOutOfRange
    | arg :: more => .ok (orm.invoke methodName (arg :: more) state)
  | some .other => .ok state

/-- The loop of lines 228-239 over the deferred calls. -/
def callMethodsLoop (orm : ORM) :
    GormDB × Recorder → List (String × List GoValue) → Except Panic (GormDB × Recorder)
  | state, [] => .ok state
  | state, call :: rest =>
    match callMethod orm state call.1 call.2 with
    | .error e => .error e
    | .ok state => callMethodsLoop orm state rest

/-- The method `SqlmockQueryExpectation.callMethods` (lines 223-240): stores the scope
value on the ORM handle, registers the callback on its query chain, and replays the
deferred calls. -/
def callMethods (orm : ORM) (q : SqlmockQueryExpectation) : Except Panic SqlmockQueryExpectation :=
  match q.scope with
  | none => .error .nilPointerDereference
  | some scope =>
    let gorm : GormDB :=
      { q.parent.gorm with
        values := q.parent.gorm.values ++ [("gorm_expect:ret", scope.Value)] }
    let gorm : GormDB :=
      { gorm with queryCallbacks := gorm.queryCallbacks ++ ["gorm_expect:populate_scope_val"] }
    match callMethodsLoop orm (gorm, q.parent.recorder) q.parent.callmap with
    | .error e => .error e
    | .ok (gorm, recorder) =>
      .ok { q with parent := { q.parent with gorm := gorm, recorder := recorder } }

/-- Lines 31-36 of `Returns`: the receiver with its scope set to a fresh scope over the
output and, for a nil output, nil rows signalled on the no-op path. -/
def beginReturns (q : SqlmockQueryExpectation) (out : GoValue) : SqlmockQueryExpectation :=
  let scope := Scope.New out
  let q : SqlmockQueryExpectation := { q with scope := some scope }
  match out with
  | .invalid => { q with parent := { q.parent with noop := { returnNilRows := true } } }
  | _ => q

/-- The method `SqlmockQueryExpectation.Returns` (lines 30-65). The result is the
receiver after the call, whose `parent` is the returned expecter. -/
def Returns (orm : ORM) (q : SqlmockQueryExpectation) (out : GoValue) :
    Except Panic SqlmockQueryExpectation :=
  let scope := Scope.New out
  let q := beginReturns q out
  match callMethods orm q with
  | .error e => .error e
  | .ok q =>
    let outVal := indirect out
    match q.parent.recorder.stmts with
    | [] => .error .indexOutOfRange
    | destQuery :: subQueries =>
      let (adapter, expectation) := q.parent.adapter.ExpectQuery destQuery
      match getDestRows orm q out with
      | .error e => .error e
      | .ok rows =>
        let adapter := adapter.Returns expectation (some rows)
        let loop : Except Panic Adapter :=
          if (destQuery :: subQueries).length > 1 then
            preloadLoop orm q scope outVal adapter subQueries
          else
            .ok adapter
        match loop with
        | .error e => .error e
        | .ok adapter =>
          let parent : Expecter := { q.parent with adapter := adapter }
          .ok { q with parent := parent.reset }

/-! ## Example models -/

/-- A user with two plain columns. -/
def userType : GoType :=
  .struct "User" [("ID", .int .Uint), ("Name", .string)]

/-- A post of a member. -/
def postType : GoType :=
  .struct "Post" [("ID", .int .Uint), ("Title", .string), ("MemberID", .int .Uint)]

/-- The profile of a member. -/
def profileType : GoType :=
  .struct "Profile" [("ID", .int .Uint), ("Bio", .string), ("MemberID", .int .Uint)]

/-- A tag. -/
def tagType : GoType :=
  .struct "Tag" [("ID", .int .Uint), ("Label", .string)]

/-- A record whose only column is an unsigned 64-bit key. -/
def bigType : GoType :=
  .struct "Big" [("ID", .int .Uint64)]

/-- A company. -/
def companyType : GoType :=
  .struct "Company" [("ID", .int .Uint), ("Name", .string)]

/-- The fields of a member: two plain columns, a has_many, a has_one, a many_to_many and
a belongs_to association with its foreign key, and a many_to_many association whose
join table has two source foreign keys. -/
def memberFields : List (String × GoType) :=
  [("ID", .int .Uint), ("Name", .string), ("Posts", .slice postType),
   ("Profile", profileType), ("Tags", .slice tagType), ("Company", companyType),
   ("CompanyID", .int .Uint), ("Groups", .slice tagType)]

/-- A member. -/
def memberType : GoType :=
  .struct "Member" memberFields

/-- A normal column. -/
def column (name dbName : String) (isPrimaryKey : Bool) : StructField :=
  { Name := name, DBName := dbName, IsPrimaryKey := isPrimaryKey, IsNormal := true,
    Relationship := none }

/-- An association field. -/
def association (name dbName : String) (relationship : Relationship) : StructField :=
  { Name := name, DBName := dbName, IsPrimaryKey := false, IsNormal := false,
    Relationship := some relationship }

/-- The join table of the tags of a member: one foreign key on each side. -/
def memberTags : JoinTableHandler :=
  { TableName := "member_tags",
    Source := { ModelType := memberType,
                ForeignKeys := [{ DBName := "member_id", AssociationDBName := "id" }] },
    Destination := { ModelType := tagType,
                     ForeignKeys := [{ DBName := "tag_id", AssociationDBName := "id" }] } }

/-- The join table of the groups of a member: two foreign keys on the source side. -/
def memberGroups : JoinTableHandler :=
  { TableName := "member_groups",
    Source := { ModelType := memberType,
                ForeignKeys := [{ DBName := "member_id", AssociationDBName := "id" },
                                { DBName := "member_name", AssociationDBName := "name" }] },
    Destination := { ModelType := tagType,
                     ForeignKeys := [{ DBName := "tag_id", AssociationDBName := "id" }] } }

/-- The schema of the example models. -/
def exampleORM : ORM where
  parseStruct name _ :=
    if name = "User" then [column "ID" "id" true, column "Name" "name" false]
    else if name = "Post" then
      [column "ID" "id" true, column "Title" "title" false, column "MemberID" "member_id" false]
    else if name = "Profile" then
      [column "ID" "id" true, column "Bio" "bio" false, column "MemberID" "member_id" false]
    else if name = "Tag" then [column "ID" "id" true, column "Label" "label" false]
    else if name = "Company" then [column "ID" "id" true, column "Name" "name" false]
    else if name = "Big" then [column "ID" "id" true]
    else if name = "Member" then
      [column "ID" "id" true, column "Name" "name" false,
       association "Posts" "posts" { Kind := "has_many", JoinTableHandler := none },
       association "Profile" "profile" { Kind := "has_one", JoinTableHandler := none },
       association "Tags" "tags" { Kind := "many_to_many", JoinTableHandler := some memberTags },
       association "Company" "company" { Kind := "belongs_to", JoinTableHandler := none },
       column "CompanyID" "company_id" false,
       association "Groups" "groups"
         { Kind := "many_to_many", JoinTableHandler := some memberGroups }]
    else []
  ToDBName name := name
  methodSignature name :=
    if name = "Model" then some .unary
    else if name = "First" then some .variadic
    else if name = "Find" then some .variadic
    else if name = "Preload" then some .other
    else none
  invoke _ _ state := state

/-- The user `User{ID: 1, Name: "a"}`. -/
def userA : GoValue :=
  .struct "User" [("ID", .int .Uint 1), ("Name", .string "a")]

/-- The user `User{ID: 2, Name: "b"}`. -/
def userB : GoValue :=
  .struct "User" [("ID", .int .Uint 2), ("Name", .string "b")]

/-- The record `Big{ID: 1 << 63}`. -/
def bigB : GoValue :=
  .struct "Big" [("ID", .int .Uint64 (2 ^ 63))]

/-- A post. -/
def post (id : Int) (title : String) : GoValue :=
  .struct "Post" [("ID", .int .Uint id), ("Title", .string title), ("MemberID", .int .Uint 7)]

/-- A tag value. -/
def tag (id : Int) (label : String) : GoValue :=
  .struct "Tag" [("ID", .int .Uint id), ("Label", .string label)]

/-- A member with two posts, a profile, two tags, no company and one group. -/
def memberM : GoValue :=
  .struct "Member"
    [("ID", .int .Uint 7), ("Name", .string "m"),
     ("Posts", .slice postType [post 1 "p", post 2 "q"]),
     ("Profile", .struct "Profile"
        [("ID", .int .Uint 3), ("Bio", .string "bio"), ("MemberID", .int .Uint 7)]),
     ("Tags", .slice tagType [tag 4 "x", tag 5 "y"]),
     ("Company", companyType.zero),
     ("CompanyID", .int .Uint 0),
     ("Groups", .slice tagType [tag 6 "g"])]

/-- A statement without a preload tag. -/
def mainStmt : Stmt :=
  { sql := "SELECT * FROM t", preload := "" }

/-- A statement tagged as the preload query of a field. -/
def preloadStmt (field : String) : Stmt :=
  { sql := "SELECT * FROM r", preload := field }

/-- An expectation whose recorder holds the given statements, whose adapter holds no
expectation yet and which has no deferred call. -/
def freshExpectation (stmts : List Stmt) : SqlmockQueryExpectation :=
  { parent := { adapter := { expectations := [] }, noop := { returnNilRows := false },
                recorder := { stmts := stmts },
                gorm := { values := [], queryCallbacks := [] }, callmap := [] },
    scope := none }

/-- The same expectation with the given deferred calls. -/
def deferredExpectation (stmts : List Stmt) (callmap : List (String × List GoValue)) :
    SqlmockQueryExpectation :=
  { freshExpectation stmts with
    parent := { (freshExpectation stmts).parent with callmap := callmap } }

/-- The row-set of the member as the main query returns it. -/
def memberRows : Rows :=
  { cols := ["id", "name", "company_id"],
    rows := [[.int .Int64 7, .string "m", .int .Int64 0]] }

/-- The row-set of the two posts of the member. -/
def postRows : Rows :=
  { cols := ["id", "title", "member_id"],
    rows := [[.int .Int64 1, .string "p", .int .Int64 7],
             [.int .Int64 2, .string "q", .int .Int64 7]] }

/-! ## Vocabulary of the statements -/

/-- The schema of a Go type: the parsed struct fields of the struct type found under its
slices and pointers, empty when there is none. -/
def ORM.schema (orm : ORM) (t : GoType) : List StructField :=
  match t.deref with
  | .struct name fields => orm.parseStruct name fields
  | _ => []

/-- The database column names of the normal fields of a type, in schema order. -/
def ORM.normalColumns (orm : ORM) (t : GoType) : List String :=
  ((orm.schema t).filter fun sf => sf.IsNormal).map fun sf => sf.DBName

/-- The value a model instance holds in the field of the given name: the field of the
struct the instance is or points to, the zero Value when it is no struct. -/
def fieldValue (v : GoValue) (name : String) : GoValue :=
  match indirect v with
  | .struct _ fields => lookupField fields name
  | _ => .invalid

/-- The values of the normal fields of a model instance, in schema order. -/
def ORM.normalValues (orm : ORM) (v : GoValue) : List GoValue :=
  ((orm.schema v.typeOf).filter fun sf => sf.IsNormal).map fun sf => fieldValue v sf.Name

/-- The column names of the foreign keys of one side of a join table. -/
def JoinTableSource.keyColumns (s : JoinTableSource) : List String :=
  s.ForeignKeys.map fun key => key.DBName

/-- The value `Rows.AddRow` stores for a value the converter accepts. -/
def driver.converted (v : GoValue) : GoValue :=
  (driver.ConvertValue v).getD .invalid

/-- The values of the normal fields of a model instance as the driver converts them, in
schema order. -/
def ORM.driverValues (orm : ORM) (v : GoValue) : List GoValue :=
  (orm.normalValues v).map driver.converted

/-- The driver's converter accepts the value of every normal field of the model
instance. -/
def ORM.Accepts (orm : ORM) (v : GoValue) : Prop :=
  ∀ x ∈ orm.normalValues v, driver.ConvertValue x ≠ none

/-- The relation row-set of a later statement: the result of `getRelationRows` on the
field of the output the preload tag names, for the relationship of the schema field
the tag resolves to; no row-set when the tag does not resolve. -/
def relationRowsFor (orm : ORM) (q : SqlmockQueryExpectation) (out : GoValue) (sub : Stmt) :
    Except Panic (Option Rows) :=
  match (Scope.New out).FieldByName orm sub.preload with
  | none => .ok none
  | some field =>
    match (indirect out).FieldByName sub.preload with
    | .error e => .error e
    | .ok rVal => getRelationRows orm q rVal sub.preload field.Relationship

/-- The row-set bound to the expectation of a later statement: its relation row-set,
none when there is none. -/
def boundRows (orm : ORM) (q : SqlmockQueryExpectation) (out : GoValue) (sub : Stmt) :
    Option Rows :=
  match relationRowsFor orm q out sub with
  | .ok rows => rows
  | .error _ => none

/-- The row-sets `Returns` binds exist: `getDestRows` returns one for the output, and
the relation row-set of every later statement with a non-empty preload tag is
computed without a panic. -/
def RowSetsExist (orm : ORM) (q : SqlmockQueryExpectation) (out : GoValue)
    (subQueries : List Stmt) : Prop :=
  (∃ destRows, getDestRows orm q out = .ok destRows)
    ∧ ∀ sub ∈ subQueries, sub.preload ≠ "" → ∃ rows, relationRowsFor orm q out sub = .ok rows

/-- The expectation a statement after the first receives: one, bound to the relation
row-set `relRows sub`, exactly when the statement has a non-empty preload tag whose name
resolves to a field of the schema of the expected output; none otherwise. -/
def preloadExpectation (orm : ORM) (out : GoValue) (relRows : Stmt → Option Rows) (sub : Stmt) :
    Option ExpectedQuery :=
  if sub.preload ≠ "" ∧ ((Scope.New out).FieldByName orm sub.preload).isSome then
    some { query := sub, rows := relRows sub }
  else
    none

/-- A slice, nil or not, whose elements all have the element type of the slice. -/
def IsTypedSlice : GoValue → Prop
  | .nilSlice _ => True
  | .slice elem elems => ∀ e ∈ elems, e.typeOf = elem
  | _ => False

/-- The expected outputs `getDestRows` builds a row-set for: nil; a struct whose normal
values the driver accepts; a slice whose elements have its element type and normal
values the driver accepts; an integer of one of the kinds of line 212 (behind any
number of pointers). -/
def SupportedOutput (orm : ORM) (out : GoValue) : Prop :=
  match indirect out with
  | .invalid => True
  | .struct name fields => orm.Accepts (.struct name fields)
  | .int k _ => k ≠ .Int8 ∧ k ≠ .Uint8 ∧ k ≠ .Uintptr
  | v => IsTypedSlice v ∧ ∀ elems, v.elements = .ok elems → ∀ e ∈ elems, orm.Accepts e

/-- The field value fits the kind of its relationship. A has_one value is valid and the
driver accepts its normal values. A has_many value is a slice of elements of its
element type whose normal values the driver accepts. A many_to_many value is such a
slice and the relationship has the default join-table handler; unless the slice is
empty, the join table has two foreign-key columns in all and the driver accepts the
primary key of the output and that of a fresh destination model. Nothing is asked of
a value of another kind of relationship. -/
def RelationFits (orm : ORM) (out : GoValue) (relation : Relationship) (rVal : GoValue) : Prop :=
  if relation.Kind = "has_one" then rVal.Kind ≠ .Invalid ∧ orm.Accepts rVal
  else if relation.Kind = "has_many" then
    IsTypedSlice rVal ∧ ∀ elems, rVal.elements = .ok elems → ∀ e ∈ elems, orm.Accepts e
  else if relation.Kind = "many_to_many" then
    IsTypedSlice rVal ∧ (∀ elems, rVal.elements = .ok elems → ∀ e ∈ elems, orm.Accepts e)
      ∧ ∃ joinTable, relation.JoinTableHandler = some joinTable ∧
        (rVal.elements = .ok [] ∨
          (joinTable.Source.ForeignKeys.length + joinTable.Destination.ForeignKeys.length = 2
            ∧ driver.ConvertValue ((Scope.New out).PrimaryKeyValue orm) ≠ none
            ∧ driver.ConvertValue
                ((Scope.mk (reflect.New joinTable.Destination.ModelType)).PrimaryKeyValue orm)
                ≠ none))
  else True

/-- Every deferred call names a method of the ORM handle and, when the method has one
of the two supported signatures, carries at least one argument. -/
def CallmapFits (orm : ORM) (callmap : List (String × List GoValue)) : Prop :=
  ∀ call ∈ callmap, ∃ signature, orm.methodSignature call.1 = some signature
    ∧ (signature ≠ .other → call.2 ≠ [])

/-- The statements the recorder holds fit the output: the list is not empty, and every
statement after the first whose non-empty preload tag resolves on the schema finds a
struct output and names a field with relationship metadata whose value fits the kind
of the relationship. -/
def StatementsFit (orm : ORM) (out : GoValue) (stmts : List Stmt) : Prop :=
  stmts ≠ [] ∧ ∀ sub ∈ stmts.tail, sub.preload ≠ "" →
    ∀ field, (Scope.New out).FieldByName orm sub.preload = some field →
      (indirect out).Kind = .Struct ∧ ∃ relation, field.Relationship = some relation
        ∧ RelationFits orm out relation (fieldValue out sub.preload)


/-! ## Lemmas on the library models -/

/-- The column loop appends the column names of the normal fields, in order. -/
theorem appendNormalColumns_eq (structFields : List StructField) (columns : List String) :
    appendNormalColumns columns structFields
      = columns ++ ((structFields.filter fun sf => sf.IsNormal).map fun sf => sf.DBName) := by
  induction structFields generalizing columns with
  | nil => simp [appendNormalColumns]
  | cons sf rest ih =>
    have h := ih (if sf.IsNormal then columns ++ [sf.DBName] else columns)
    simp only [appendNormalColumns, List.foldl_cons] at h ⊢
    rw [h]
    cases hn : sf.IsNormal <;> simp [List.filter_cons, hn]

/-- The key loop appends the column names of the keys, in order. -/
theorem appendForeignKeys_eq (keys : List JoinTableForeignKey) (columns : List String) :
    appendForeignKeys columns keys = columns ++ keys.map fun key => key.DBName := by
  induction keys generalizing columns with
  | nil => simp [appendForeignKeys]
  | cons key rest ih =>
    have h := ih (columns ++ [key.DBName])
    simp only [appendForeignKeys, List.foldl_cons] at h ⊢
    rw [h]
    simp

/-- The struct fields of a scope are the schema of the type of its value. -/
theorem GetModelStruct_eq (orm : ORM) (v : GoValue) :
    Scope.GetModelStruct orm { Value := v } = orm.schema v.typeOf := by
  cases v <;> rfl

/-- The fields of a scope pair each schema entry with the value of that field. -/
theorem Fields_eq (orm : ORM) (v : GoValue) :
    Scope.Fields orm { Value := v }
      = (orm.schema v.typeOf).map fun sf =>
          ({ toStructField := sf, Field := fieldValue v sf.Name } : Field) := by
  unfold Scope.Fields
  rw [GetModelStruct_eq]
  apply List.map_congr_left
  intro sf _
  unfold fieldValue
  cases indirect v <;> rfl

/-- The row of a scope is the list of the normal-field values of its value. -/
theorem getRowForFields_Fields (orm : ORM) (v : GoValue) :
    getRowForFields (Scope.Fields orm { Value := v }) = orm.normalValues v := by
  rw [Fields_eq]
  unfold getRowForFields ORM.normalValues
  rw [List.filter_map, List.map_map]
  rfl

/-- A model instance has as many normal values as its type has normal columns. -/
theorem normalValues_length (orm : ORM) (v : GoValue) :
    (orm.normalValues v).length = (orm.normalColumns v.typeOf).length := by
  simp [ORM.normalValues, ORM.normalColumns]

/-- Dereferencing a valid value does not change the type under slices and pointers. -/
theorem typeOf_deref_indirect :
    ∀ v : GoValue, (indirect v).Kind ≠ .Invalid → v.typeOf.deref = (indirect v).typeOf.deref
  | .ptr t, h => by
    have h1 : (indirect t).Kind ≠ .Invalid := by simpa [indirect] using h
    simpa [indirect, GoValue.typeOf, GoType.deref] using typeOf_deref_indirect t h1
  | .nilPtr _, h => by simp [indirect, GoValue.Kind] at h
  | .invalid, _ => rfl
  | .bool _, _ => rfl
  | .int _ _, _ => rfl
  | .string _, _ => rfl
  | .struct _ _, _ => rfl
  | .nilSlice _, _ => rfl
  | .slice _ _, _ => rfl

/-- A value and the value it points to have the same schema. -/
theorem schema_indirect (orm : ORM) (v : GoValue) (h : (indirect v).Kind ≠ .Invalid) :
    orm.schema v.typeOf = orm.schema (indirect v).typeOf := by
  unfold ORM.schema
  rw [typeOf_deref_indirect v h]

/-- The conversion loop succeeds on values the converter accepts and gives the
converted values. -/
theorem convertRow_ok (values : List GoValue) (h : ∀ v ∈ values, driver.ConvertValue v ≠ none) :
    convertRow values = .ok (values.map driver.converted) := by
  induction values with
  | nil => rfl
  | cons v rest ih =>
    have hv := h v (List.mem_cons_self _ _)
    have hrest := ih (fun x hx => h x (List.mem_cons_of_mem _ hx))
    cases hc : driver.ConvertValue v with
    | none => exact absurd hc hv
    | some w => simp [convertRow, hc, hrest, driver.converted]

/-- The conversion loop panics on a row one of whose values the converter rejects. -/
theorem convertRow_rejects (values : List GoValue) (v : GoValue) (hv : v ∈ values)
    (h : driver.ConvertValue v = none) : convertRow values = .error .addRowConvert := by
  induction values with
  | nil => cases hv
  | cons x rest ih =>
    cases hc : driver.ConvertValue x with
    | none => simp [convertRow, hc]
    | some w =>
      have hv' : v ∈ rest := by
        rcases List.mem_cons.mp hv with hx | hx
        · subst hx; rw [h] at hc; cases hc
        · exact hx
      simp [convertRow, hc, ih hv']

/-- A row of the right length whose values the converter accepts is added, converted. -/
theorem AddRow_ok (r : Rows) (values : List GoValue) (hlen : values.length = r.cols.length)
    (h : ∀ v ∈ values, driver.ConvertValue v ≠ none) :
    r.AddRow values = .ok { cols := r.cols, rows := r.rows ++ [values.map driver.converted] } := by
  simp [Rows.AddRow, hlen, convertRow_ok values h]

/-- The element loop adds one row of converted values per element when every row fits
the columns and the converter accepts its values. -/
theorem addElementRows_ok (orm : ORM) (elems : List GoValue) (rows : Rows)
    (h : ∀ e ∈ elems, (orm.normalValues e).length = rows.cols.length)
    (hacc : ∀ e ∈ elems, orm.Accepts e) :
    addElementRows orm rows elems
      = .ok { cols := rows.cols, rows := rows.rows ++ elems.map orm.driverValues } := by
  induction elems generalizing rows with
  | nil => simp [addElementRows]
  | cons e rest ih =>
    have he := h e (List.mem_cons_self _ _)
    have ha := hacc e (List.mem_cons_self _ _)
    simp only [addElementRows, getRowForFields_Fields, AddRow_ok rows _ he ha]
    rw [ih]
    · simp [ORM.driverValues]
    · intro e' he'
      exact h e' (List.mem_cons_of_mem _ he')
    · intro e' he'
      exact hacc e' (List.mem_cons_of_mem _ he')

/-- Dereferencing twice is dereferencing once. -/
theorem indirect_idem : ∀ v : GoValue, indirect (indirect v) = indirect v
  | .ptr t => by simpa [indirect] using indirect_idem t
  | .nilPtr _ => rfl
  | .invalid => rfl
  | .bool _ => rfl
  | .int _ _ => rfl
  | .string _ => rfl
  | .struct _ _ => rfl
  | .nilSlice _ => rfl
  | .slice _ _ => rfl

/-- A value and the value it points to have the same normal columns. -/
theorem normalColumns_indirect (orm : ORM) (v : GoValue) (h : (indirect v).Kind ≠ .Invalid) :
    orm.normalColumns v.typeOf = orm.normalColumns (indirect v).typeOf := by
  unfold ORM.normalColumns
  rw [schema_indirect orm v h]

/-- A value and the value it points to have the same normal values. -/
theorem normalValues_indirect (orm : ORM) (v : GoValue) (h : (indirect v).Kind ≠ .Invalid) :
    orm.normalValues v = orm.normalValues (indirect v) := by
  unfold ORM.normalValues fieldValue
  rw [schema_indirect orm v h, indirect_idem]

/-- A slice type has the normal columns of its element type. -/
theorem normalColumns_slice (orm : ORM) (elem : GoType) :
    orm.normalColumns (.slice elem) = orm.normalColumns elem := by
  simp [ORM.normalColumns, ORM.schema, GoType.deref]

/-- A pointer type has the normal columns of its element type. -/
theorem normalColumns_ptr (orm : ORM) (elem : GoType) :
    orm.normalColumns (.ptr elem) = orm.normalColumns elem := by
  simp [ORM.normalColumns, ORM.schema, GoType.deref]

/-- The columns computed for a scope value are the normal columns of its type. -/
theorem destColumns_eq (orm : ORM) (out : GoValue) :
    appendNormalColumns [] ((Scope.New out).GetModelStruct orm) = orm.normalColumns out.typeOf := by
  rw [Scope.New, GetModelStruct_eq, appendNormalColumns_eq]
  simp [ORM.normalColumns]

/-- The method `Interface` succeeds on a valid value. -/
theorem Interface_ok (v : GoValue) (h : v.Kind ≠ .Invalid) : v.Interface = .ok v := by
  cases v <;> first | rfl | exact absurd rfl h

/-- The method `Type` succeeds on a valid value. -/
theorem Type_ok (v : GoValue) (h : v.Kind ≠ .Invalid) : v.Type = .ok v.typeOf := by
  cases v <;> first | rfl | exact absurd rfl h

/-- The join-table loop adds one row per element when every row fits the columns and
the converter accepts its values. -/
theorem addJoinTableRows_ok (orm : ORM) (q : SqlmockQueryExpectation) (joinTable : JoinTableHandler)
    (qscope : Scope) (hq : q.scope = some qscope) (elems : List GoValue) (rows : Rows)
    (h : ∀ e ∈ elems, (orm.normalValues e).length + 2 = rows.cols.length)
    (hacc : ∀ e ∈ elems, orm.Accepts e)
    (hsource : driver.ConvertValue (qscope.PrimaryKeyValue orm) ≠ none)
    (hdest : driver.ConvertValue
      ((Scope.mk (reflect.New joinTable.Destination.ModelType)).PrimaryKeyValue orm) ≠ none) :
    addJoinTableRows orm q joinTable rows elems
      = .ok { cols := rows.cols,
              rows := rows.rows ++ elems.map fun e =>
                orm.driverValues e ++
                  [driver.converted (qscope.PrimaryKeyValue orm),
                   driver.converted
                     ((Scope.mk (reflect.New joinTable.Destination.ModelType)).PrimaryKeyValue
                       orm)] } := by
  induction elems generalizing rows with
  | nil => simp [addJoinTableRows]
  | cons e rest ih =>
    have he := h e (List.mem_cons_self _ _)
    have ha := hacc e (List.mem_cons_self _ _)
    have hlen : (orm.normalValues e ++
        [qscope.PrimaryKeyValue orm,
         (Scope.mk (reflect.New joinTable.Destination.ModelType)).PrimaryKeyValue orm]).length
        = rows.cols.length := by
      rw [← he]; simp
    have hall : ∀ v ∈ orm.normalValues e ++
        [qscope.PrimaryKeyValue orm,
         (Scope.mk (reflect.New joinTable.Destination.ModelType)).PrimaryKeyValue orm],
        driver.ConvertValue v ≠ none := by
      intro v hv
      rcases List.mem_append.mp hv with hv | hv
      · exact ha v hv
      · simp only [List.mem_cons, List.mem_singleton, List.not_mem_nil, or_false] at hv
        rcases hv with hv | hv <;> rw [hv] <;> assumption
    simp only [addJoinTableRows, hq, getRowForFields_Fields, AddRow_ok rows _ hlen hall]
    rw [ih]
    · simp [ORM.driverValues]
    · intro e' he'
      exact h e' (List.mem_cons_of_mem _ he')
    · intro e' he'
      exact hacc e' (List.mem_cons_of_mem _ he')

mutual
/-- The zero value of a type has that type. -/
theorem typeOf_zero : ∀ t : GoType, t.zero.typeOf = t
  | .bool => rfl
  | .int _ => rfl
  | .string => rfl
  | .iface => rfl
  | .struct n fs => by simp [GoType.zero, GoValue.typeOf, typeOfFields_zeroFields fs]
  | .slice _ => rfl
  | .ptr _ => rfl
/-- The zero fields of a struct type have the types of its fields. -/
theorem typeOfFields_zeroFields :
    ∀ fs : List (String × GoType), GoValue.typeOfFields (GoType.zeroFields fs) = fs
  | [] => rfl
  | (n, t) :: rest => by
    simp [GoType.zeroFields, GoValue.typeOfFields, typeOf_zero t, typeOfFields_zeroFields rest]
end

/-- The columns computed from a fresh element are the normal columns of the element type. -/
theorem relationColumns_eq (orm : ORM) (elem : GoType) :
    appendNormalColumns [] (Scope.GetModelStruct orm { Value := reflect.New elem })
      = orm.normalColumns elem := by
  have h := destColumns_eq orm (reflect.New elem)
  rw [Scope.New] at h
  rw [h, reflect.New, GoValue.typeOf, typeOf_zero, normalColumns_ptr]

/-! ## Lemmas on the row builders -/

/-- The converted values of a model instance are as many as its normal values. -/
theorem driverValues_length (orm : ORM) (v : GoValue) :
    (orm.driverValues v).length = (orm.normalValues v).length := by
  simp [ORM.driverValues]

/-- A has_many field holding a typed slice of accepted elements gives one row per
element. -/
theorem relationRows_of_has_many (orm : ORM) (q : SqlmockQueryExpectation) (rVal : GoValue)
    (fieldName : String) (relation : Relationship) (elem : GoType) (elems : List GoValue)
    (hkind : relation.Kind = "has_many")
    (hr : rVal = .slice elem elems ∨ (rVal = .nilSlice elem ∧ elems = []))
    (hty : ∀ e ∈ elems, e.typeOf = elem)
    (hacc : ∀ e ∈ elems, orm.Accepts e) :
    getRelationRows orm q rVal fieldName (some relation)
      = .ok (some { cols := orm.normalColumns elem, rows := elems.map orm.driverValues }) := by
  have hlen : ∀ e ∈ elems, (orm.normalValues e).length
      = (sqlmock.NewRows (orm.normalColumns elem)).cols.length := by
    intro e he
    rw [normalValues_length, hty e he]
    rfl
  unfold getRelationRows
  rcases hr with h | ⟨h, h'⟩
  · subst h
    cases elems with
    | nil =>
      simp [hkind, GoValue.Type, GoValue.typeOf, GoType.Elem, bind, Except.bind,
        relationColumns_eq, GoValue.Interface, GoType.zero, reflect.DeepEqual, GoValue.elements,
        pure, Except.pure, sqlmock.NewRows]
    | cons e rest =>
      have hadd := addElementRows_ok orm (e :: rest) _ hlen hacc
      simp only [sqlmock.NewRows] at hadd
      simp [hkind, GoValue.Type, GoValue.typeOf, GoType.Elem, bind, Except.bind,
        relationColumns_eq, GoValue.Interface, GoType.zero, reflect.DeepEqual, GoValue.elements,
        pure, Except.pure, sqlmock.NewRows]
      rw [hadd]
      simp
  · subst h h'
    simp only [hkind, GoValue.Type, GoValue.typeOf, GoType.Elem, bind, Except.bind,
      relationColumns_eq, GoValue.Interface, GoType.zero, GoValue.elements,
      pure, Except.pure, sqlmock.NewRows]
    cases reflect.DeepEqual (GoValue.nilSlice elem) (GoValue.nilSlice elem) <;> simp

/-- The row-set of a struct output whose values the driver accepts, the receiver
holding the scope of the output. -/
theorem destRows_of_struct (orm : ORM) (q : SqlmockQueryExpectation) (out : GoValue)
    (hq : q.scope = some (Scope.New out))
    (hk : (indirect out).Kind = .Struct) (hacc : orm.Accepts (indirect out)) :
    getDestRows orm q out
      = .ok { cols := orm.normalColumns (indirect out).typeOf,
              rows := [orm.driverValues (indirect out)] } := by
  have hv : (indirect out).Kind ≠ .Invalid := by rw [hk]; decide
  have hacc' : orm.Accepts out := by
    unfold ORM.Accepts
    rw [normalValues_indirect orm out hv]
    exact hacc
  have hlen : (orm.normalValues out).length
      = (sqlmock.NewRows (orm.normalColumns out.typeOf)).cols.length := by
    rw [normalValues_length]; rfl
  unfold getDestRows
  simp only [hk, destColumns_eq, or_true, if_true, reduceCtorEq, if_false, hq]
  simp only [Scope.New, getRowForFields_Fields]
  rw [AddRow_ok _ _ hlen hacc']
  simp only [sqlmock.NewRows, List.nil_append]
  rw [normalColumns_indirect orm out hv, ORM.driverValues, normalValues_indirect orm out hv]

/-- A struct output one of whose normal values the driver rejects makes `getDestRows`
panic. -/
theorem destRows_of_rejected (orm : ORM) (q : SqlmockQueryExpectation) (out : GoValue)
    (hq : q.scope = some (Scope.New out))
    (hk : (indirect out).Kind = .Struct) (x : GoValue) (hx : x ∈ orm.normalValues out)
    (hrej : driver.ConvertValue x = none) :
    getDestRows orm q out = .error .addRowConvert := by
  have hlen : (orm.normalValues out).length
      = (sqlmock.NewRows (orm.normalColumns out.typeOf)).cols.length := by
    rw [normalValues_length]; rfl
  unfold getDestRows
  simp only [hk, destColumns_eq, or_true, if_true, reduceCtorEq, if_false, hq]
  simp [Scope.New, getRowForFields_Fields, Rows.AddRow, hlen,
    convertRow_rejects _ x hx hrej]

/-- The row-set of a typed slice output whose elements the driver accepts. -/
theorem destRows_of_slice (orm : ORM) (q : SqlmockQueryExpectation) (out : GoValue)
    (elem : GoType) (elems : List GoValue)
    (hout : indirect out = .slice elem elems ∨ (indirect out = .nilSlice elem ∧ elems = []))
    (hty : ∀ e ∈ elems, e.typeOf = elem)
    (hacc : ∀ e ∈ elems, orm.Accepts e) :
    getDestRows orm q out
      = .ok { cols := orm.normalColumns elem, rows := elems.map orm.driverValues } := by
  have hk : (indirect out).Kind = .Slice := by
    rcases hout with h | ⟨h, _⟩ <;> rw [h] <;> rfl
  have hv : (indirect out).Kind ≠ .Invalid := by rw [hk]; decide
  have hcols : orm.normalColumns out.typeOf = orm.normalColumns elem := by
    rw [normalColumns_indirect orm out hv]
    rcases hout with h | ⟨h, _⟩ <;> rw [h] <;> exact normalColumns_slice orm elem
  have hel : (indirect out).elements = .ok elems := by
    rcases hout with h | ⟨h, h'⟩
    · rw [h]; rfl
    · rw [h, h']; rfl
  unfold getDestRows
  simp only [hk, destColumns_eq, true_or, if_true, reduceCtorEq, if_false, hel, hcols]
  show addElementRows orm (sqlmock.NewRows (orm.normalColumns elem)) elems = _
  rw [addElementRows_ok]
  · simp [sqlmock.NewRows]
  · intro e he
    rw [normalValues_length, hty e he]
    rfl
  · exact hacc

/-- The row-set of a nil output. -/
theorem destRows_of_nil (orm : ORM) (q : SqlmockQueryExpectation) (out : GoValue)
    (hout : indirect out = .invalid) :
    getDestRows orm q out = .ok { cols := ["count"], rows := [] } := by
  unfold getDestRows
  simp [hout, GoValue.Kind, sqlmock.NewRows]

/-- The converter accepts what it returns. -/
theorem ConvertValue_converted_int (k : IntKind) (n : Int) :
    driver.ConvertValue (driver.converted (.int k n)) ≠ none := by
  cases k <;> simp [driver.converted, driver.ConvertValue]
  split <;> simp [driver.ConvertValue]

/-- The destination row builder succeeds on an integer output of a listed kind. -/
theorem destRows_of_int (orm : ORM) (q : SqlmockQueryExpectation) (out : GoValue)
    (k : IntKind) (n : Int) (hout : indirect out = .int k n)
    (hk : k ≠ .Int8 ∧ k ≠ .Uint8 ∧ k ≠ .Uintptr) :
    ∃ rows, getDestRows orm q out = .ok rows := by
  obtain ⟨h1, h2, h3⟩ := hk
  have hadd := AddRow_ok (sqlmock.NewRows ["count"]) [driver.converted (.int k n)] rfl
    (by intro v hv; rw [List.mem_singleton] at hv; rw [hv]; exact ConvertValue_converted_int k n)
  unfold getDestRows
  cases k <;> first
    | exact absurd rfl h1
    | exact absurd rfl h2
    | exact absurd rfl h3
    | exact ⟨_, by simpa [hout, GoValue.Kind, IntKind.kind, driver.converted] using hadd⟩

/-- The row-set of a has_one field holding a valid value: no row for the zero value,
one row of converted values for another value the driver accepts. -/
theorem relationRows_of_has_one (orm : ORM) (q : SqlmockQueryExpectation) (rVal : GoValue)
    (fieldName : String) (relation : Relationship)
    (hkind : relation.Kind = "has_one") (hvalid : rVal.Kind ≠ .Invalid)
    (hacc : reflect.DeepEqual rVal rVal.typeOf.zero = false → orm.Accepts rVal) :
    getRelationRows orm q rVal fieldName (some relation)
      = .ok (some { cols := orm.normalColumns rVal.typeOf,
                    rows := if reflect.DeepEqual rVal rVal.typeOf.zero then []
                            else [orm.driverValues rVal] }) := by
  have hc := destColumns_eq orm rVal
  rw [Scope.New] at hc
  have hlen : (orm.normalValues rVal).length
      = (sqlmock.NewRows (orm.normalColumns rVal.typeOf)).cols.length := by
    rw [normalValues_length]; rfl
  unfold getRelationRows
  simp only [hkind, if_true, Interface_ok rVal hvalid, Type_ok rVal hvalid, bind, Except.bind, hc,
    getRowForFields_Fields, pure, Except.pure]
  cases hz : reflect.DeepEqual rVal rVal.typeOf.zero with
  | true => simp [sqlmock.NewRows]
  | false =>
    rw [AddRow_ok _ _ hlen (hacc hz)]
    simp [sqlmock.NewRows, ORM.driverValues]

/-- A has_one field holding a non-zero value one of whose normal values the driver
rejects makes `getRelationRows` panic. -/
theorem relationRows_of_rejected (orm : ORM) (q : SqlmockQueryExpectation) (rVal : GoValue)
    (fieldName : String) (relation : Relationship)
    (hkind : relation.Kind = "has_one") (hvalid : rVal.Kind ≠ .Invalid)
    (hz : reflect.DeepEqual rVal rVal.typeOf.zero = false)
    (x : GoValue) (hx : x ∈ orm.normalValues rVal) (hrej : driver.ConvertValue x = none) :
    getRelationRows orm q rVal fieldName (some relation) = .error .addRowConvert := by
  have hc := destColumns_eq orm rVal
  rw [Scope.New] at hc
  have hlen : (orm.normalValues rVal).length
      = (sqlmock.NewRows (orm.normalColumns rVal.typeOf)).cols.length := by
    rw [normalValues_length]; rfl
  unfold getRelationRows
  simp [hkind, Interface_ok rVal hvalid, Type_ok rVal hvalid, bind, Except.bind, hc,
    getRowForFields_Fields, hz, Rows.AddRow, hlen, convertRow_rejects _ x hx hrej]

/-- The row-set of a many_to_many field whose join table has two key columns. -/
theorem relationRows_of_join (orm : ORM) (q : SqlmockQueryExpectation) (rVal : GoValue)
    (fieldName : String) (relation : Relationship) (joinTable : JoinTableHandler)
    (qscope : Scope) (elem : GoType) (elems : List GoValue)
    (hkind : relation.Kind = "many_to_many")
    (hjoin : relation.JoinTableHandler = some joinTable)
    (hkeys : joinTable.Source.ForeignKeys.length + joinTable.Destination.ForeignKeys.length = 2)
    (hq : q.scope = some qscope)
    (hr : rVal = .slice elem elems) (hne : elems ≠ [])
    (hty : ∀ e ∈ elems, e.typeOf = elem)
    (hacc : ∀ e ∈ elems, orm.Accepts e)
    (hsource : driver.ConvertValue (qscope.PrimaryKeyValue orm) ≠ none)
    (hdest : driver.ConvertValue
      ((Scope.mk (reflect.New joinTable.Destination.ModelType)).PrimaryKeyValue orm) ≠ none) :
    getRelationRows orm q rVal fieldName (some relation)
      = .ok (some { cols := orm.normalColumns elem ++ joinTable.Source.keyColumns
                      ++ joinTable.Destination.keyColumns,
                    rows := elems.map (fun e =>
                      orm.driverValues e ++
                        [driver.converted (qscope.PrimaryKeyValue orm),
                         driver.converted
                           ((Scope.mk (reflect.New joinTable.Destination.ModelType)).PrimaryKeyValue
                             orm)]) }) := by
  have hlen : ∀ e ∈ elems, (orm.normalValues e).length + 2
      = (sqlmock.NewRows (orm.normalColumns elem ++ joinTable.Source.keyColumns
          ++ joinTable.Destination.keyColumns)).cols.length := by
    intro e he
    rw [normalValues_length, hty e he]
    simp only [sqlmock.NewRows, JoinTableSource.keyColumns, List.length_append, List.length_map]
    omega
  subst hr
  obtain ⟨e, rest, rfl⟩ := List.exists_cons_of_ne_nil hne
  have hadd := addJoinTableRows_ok orm q joinTable qscope hq (e :: rest) _ hlen hacc hsource hdest
  simp only [sqlmock.NewRows, JoinTableSource.keyColumns, List.append_assoc] at hadd
  unfold getRelationRows
  simp [hkind, hjoin, GoValue.Type, GoValue.typeOf, GoType.Elem, bind, Except.bind,
    relationColumns_eq, appendForeignKeys_eq, GoValue.Interface, GoType.zero, reflect.DeepEqual,
    GoValue.elements, pure, Except.pure, JoinTableSource.keyColumns, sqlmock.NewRows]
  rw [hadd]
  simp

/-- The row-set of a many_to_many field holding no element. -/
theorem relationRows_of_empty_join (orm : ORM) (q : SqlmockQueryExpectation)
    (rVal : GoValue) (fieldName : String) (relation : Relationship) (joinTable : JoinTableHandler)
    (elem : GoType)
    (hkind : relation.Kind = "many_to_many")
    (hjoin : relation.JoinTableHandler = some joinTable)
    (hr : rVal = .slice elem [] ∨ rVal = .nilSlice elem) :
    getRelationRows orm q rVal fieldName (some relation)
      = .ok (some { cols := orm.normalColumns elem ++ joinTable.Source.keyColumns
                      ++ joinTable.Destination.keyColumns,
                    rows := [] }) := by
  unfold getRelationRows
  rcases hr with h | h
  · subst h
    simp [hkind, hjoin, GoValue.Type, GoValue.typeOf, GoType.Elem, bind, Except.bind,
      relationColumns_eq, appendForeignKeys_eq, GoValue.Interface, GoType.zero, reflect.DeepEqual,
      GoValue.elements, pure, Except.pure, JoinTableSource.keyColumns, sqlmock.NewRows]
  · subst h
    simp only [hkind, hjoin, GoValue.Type, GoValue.typeOf, GoType.Elem, bind, Except.bind,
      relationColumns_eq, appendForeignKeys_eq, GoValue.Interface, GoType.zero,
      GoValue.elements, pure, Except.pure, JoinTableSource.keyColumns, sqlmock.NewRows]
    cases reflect.DeepEqual (GoValue.nilSlice elem) (GoValue.nilSlice elem) <;> simp

/-- A relationship of another kind gives no row-set. -/
theorem relationRows_of_other_kind (orm : ORM) (q : SqlmockQueryExpectation) (rVal : GoValue)
    (fieldName : String) (relation : Relationship)
    (h1 : relation.Kind ≠ "has_one") (h2 : relation.Kind ≠ "has_many")
    (h3 : relation.Kind ≠ "many_to_many") :
    getRelationRows orm q rVal fieldName (some relation) = .ok none := by
  unfold getRelationRows
  simp [h1, h2, h3, pure, Except.pure]

/-- A typed slice is a nil slice or a slice of elements of its element type. -/
theorem IsTypedSlice_cases (rVal : GoValue) (h : IsTypedSlice rVal) :
    ∃ elem elems, (rVal = .slice elem elems ∨ (rVal = .nilSlice elem ∧ elems = []))
      ∧ rVal.elements = .ok elems ∧ ∀ e ∈ elems, e.typeOf = elem := by
  cases rVal with
  | nilSlice elem => exact ⟨elem, [], Or.inr ⟨rfl, rfl⟩, rfl, by simp⟩
  | slice elem elems => exact ⟨elem, elems, Or.inl rfl, rfl, h⟩
  | _ => exact absurd h (by simp [IsTypedSlice])

/-- The relation row builder succeeds on a value that fits its relationship. -/
theorem relationRows_of_fits (orm : ORM) (q : SqlmockQueryExpectation) (out rVal : GoValue)
    (fieldName : String) (relation : Relationship) (hq : q.scope = some (Scope.New out))
    (hfit : RelationFits orm out relation rVal) :
    ∃ rows, getRelationRows orm q rVal fieldName (some relation) = .ok rows := by
  unfold RelationFits at hfit
  by_cases h1 : relation.Kind = "has_one"
  · simp only [h1, if_true] at hfit
    exact ⟨_, relationRows_of_has_one orm q rVal fieldName relation h1 hfit.1 (fun _ => hfit.2)⟩
  · by_cases h2 : relation.Kind = "has_many"
    · rw [if_neg h1, if_pos h2] at hfit
      obtain ⟨elem, elems, hr, hel, hty⟩ := IsTypedSlice_cases rVal hfit.1
      exact ⟨_, relationRows_of_has_many orm q rVal fieldName relation elem elems h2 hr hty
        (hfit.2 elems hel)⟩
    · by_cases h3 : relation.Kind = "many_to_many"
      · rw [if_neg h1, if_neg h2, if_pos h3] at hfit
        obtain ⟨hts, hacc, joinTable, hjoin, hkeys⟩ := hfit
        obtain ⟨elem, elems, hr, hel, hty⟩ := IsTypedSlice_cases rVal hts
        rcases hr with hr | ⟨hr, _⟩
        · cases elems with
          | nil =>
            exact ⟨_, relationRows_of_empty_join orm q rVal fieldName relation joinTable
              elem h3 hjoin (Or.inl hr)⟩
          | cons e rest =>
            rcases hkeys with hk | ⟨hk, hs, hd⟩
            · rw [hel] at hk
              cases hk
            · exact ⟨_, relationRows_of_join orm q rVal fieldName relation joinTable
                (Scope.New out) elem (e :: rest) h3 hjoin hk hq hr (by simp) hty
                (hacc _ hel) hs hd⟩
        · exact ⟨_, relationRows_of_empty_join orm q rVal fieldName relation joinTable
            elem h3 hjoin (Or.inr hr)⟩
      · exact ⟨none, relationRows_of_other_kind orm q rVal fieldName relation h1 h2 h3⟩

/-- The destination row builder succeeds on a supported output. -/
theorem destRows_of_supported (orm : ORM) (q : SqlmockQueryExpectation) (out : GoValue)
    (hq : q.scope = some (Scope.New out)) (hout : SupportedOutput orm out) :
    ∃ rows, getDestRows orm q out = .ok rows := by
  unfold SupportedOutput at hout
  cases hv : indirect out with
  | invalid => exact ⟨_, destRows_of_nil orm _ out hv⟩
  | struct name fields =>
    rw [hv] at hout
    exact ⟨_, destRows_of_struct orm q out hq (by rw [hv]; rfl) (by rw [hv]; exact hout)⟩
  | int k n =>
    rw [hv] at hout
    exact destRows_of_int orm _ out k n hv hout
  | nilSlice elem =>
    exact ⟨_, destRows_of_slice orm _ out elem [] (Or.inr ⟨hv, rfl⟩) (by simp) (by simp)⟩
  | slice elem elems =>
    rw [hv] at hout
    exact ⟨_, destRows_of_slice orm _ out elem elems (Or.inl hv) hout.1 (hout.2 elems rfl)⟩
  | bool b => rw [hv] at hout; exact absurd hout.1 (by simp [IsTypedSlice])
  | string s => rw [hv] at hout; exact absurd hout.1 (by simp [IsTypedSlice])
  | nilPtr e => rw [hv] at hout; exact absurd hout.1 (by simp [IsTypedSlice])
  | ptr t => rw [hv] at hout; exact absurd hout.1 (by simp [IsTypedSlice])

/-- The field lookup succeeds on a struct output. -/
theorem FieldByName_struct (v : GoValue) (name : String) (h : (indirect v).Kind = .Struct) :
    (indirect v).FieldByName name = .ok (fieldValue v name) := by
  unfold fieldValue
  cases hv : indirect v <;> rw [hv] at h <;>
    first | rfl | (cases h) | (rename_i k _; cases k <;> cases h)

/-! ## Lemmas on `Returns` -/

/-- Binding rows to the last expectation of a list. -/
theorem bindRows_append (rows : Option Rows) (query : Stmt) (l : List ExpectedQuery) :
    bindRows rows l.length (l ++ [{ query := query, rows := none }])
      = l ++ [{ query := query, rows := rows }] := by
  induction l with
  | nil => rfl
  | cons e rest ih => simp [bindRows, ih]

/-- Registering an expectation and binding rows to it appends the bound expectation. -/
theorem ExpectQuery_Returns (a : Adapter) (query : Stmt) (rows : Option Rows) :
    (a.ExpectQuery query).1.Returns (a.ExpectQuery query).2 rows
      = { expectations := a.expectations ++ [{ query := query, rows := rows }] } := by
  simp [Adapter.ExpectQuery, Adapter.Returns, bindRows_append]

/-- The receiver `Returns` hands on holds the scope of the output. -/
theorem beginReturns_scope (q : SqlmockQueryExpectation) (out : GoValue) :
    (beginReturns q out).scope = some (Scope.New out) := by
  cases out <;> rfl

/-- The first lines of `Returns` leave the adapter as it is. -/
theorem beginReturns_adapter (q : SqlmockQueryExpectation) (out : GoValue) :
    (beginReturns q out).parent.adapter = q.parent.adapter := by
  cases out <;> rfl

/-- The first lines of `Returns` leave the deferred calls as they are. -/
theorem beginReturns_callmap (q : SqlmockQueryExpectation) (out : GoValue) :
    (beginReturns q out).parent.callmap = q.parent.callmap := by
  cases out <;> rfl

/-- The replay of the deferred calls changes neither the scope nor the adapter. -/
theorem callMethods_frame (orm : ORM) (q q₁ : SqlmockQueryExpectation)
    (h : callMethods orm q = .ok q₁) :
    q₁.scope = q.scope ∧ q₁.parent.adapter = q.parent.adapter := by
  unfold callMethods at h
  cases hs : q.scope with
  | none => rw [hs] at h; cases h
  | some scope =>
    rw [hs] at h
    simp only at h
    split at h
    · cases h
    · cases h
      exact ⟨rfl, rfl⟩

/-- The replay loop completes when every deferred call fits the handle. -/
theorem callMethodsLoop_succeeds (orm : ORM) (callmap : List (String × List GoValue))
    (state : GormDB × Recorder) (h : CallmapFits orm callmap) :
    ∃ state', callMethodsLoop orm state callmap = .ok state' := by
  induction callmap generalizing state with
  | nil => exact ⟨state, rfl⟩
  | cons call rest ih =>
    have hrest : CallmapFits orm rest := fun c hc => h c (List.mem_cons_of_mem _ hc)
    obtain ⟨signature, hsig, hargs⟩ := h call (List.mem_cons_self _ _)
    have hstep : ∃ state', callMethod orm state call.1 call.2 = .ok state' := by
      unfold callMethod
      rw [hsig]
      cases signature with
      | other => exact ⟨_, rfl⟩
      | unary =>
        cases hc : call.2 with
        | nil => exact absurd hc (hargs (by decide))
        | cons arg more => exact ⟨_, rfl⟩
      | variadic =>
        cases hc : call.2 with
        | nil => exact absurd hc (hargs (by decide))
        | cons arg more => exact ⟨_, rfl⟩
    obtain ⟨state', hstate⟩ := hstep
    simp only [callMethodsLoop, hstate]
    exact ih state' hrest

/-- The replay of the deferred calls completes when the receiver has a scope and every
deferred call fits the handle. -/
theorem callMethods_succeeds (orm : ORM) (q : SqlmockQueryExpectation) (scope : Scope)
    (hs : q.scope = some scope) (h : CallmapFits orm q.parent.callmap) :
    ∃ q₁, callMethods orm q = .ok q₁ := by
  unfold callMethods
  rw [hs]
  simp only
  obtain ⟨state', hloop⟩ := callMethodsLoop_succeeds orm q.parent.callmap
    ({ values := q.parent.gorm.values ++ [("gorm_expect:ret", scope.Value)],
       queryCallbacks := q.parent.gorm.queryCallbacks ++ ["gorm_expect:populate_scope_val"] },
     q.parent.recorder) h
  rw [hloop]
  exact ⟨_, rfl⟩

/-- The preload loop appends the expectations of the resolving statements, in order,
when their relation row-sets exist. -/
theorem preloadLoop_adds (orm : ORM) (q : SqlmockQueryExpectation) (out : GoValue)
    (subQueries : List Stmt) (adapter : Adapter)
    (hrel : ∀ sub ∈ subQueries, sub.preload ≠ "" →
      ∃ rows, relationRowsFor orm q out sub = .ok rows) :
    preloadLoop orm q (Scope.New out) (indirect out) adapter subQueries
      = .ok { expectations := adapter.expectations
                ++ subQueries.filterMap (preloadExpectation orm out (boundRows orm q out)) } := by
  induction subQueries generalizing adapter with
  | nil => simp [preloadLoop]
  | cons sub rest ih =>
    have hrest : ∀ s ∈ rest, s.preload ≠ "" → ∃ rows, relationRowsFor orm q out s = .ok rows :=
      fun s hs => hrel s (List.mem_cons_of_mem _ hs)
    unfold preloadLoop
    by_cases htag : sub.preload = ""
    · simp [htag, ih _ hrest, preloadExpectation]
    · obtain ⟨rows, hrows⟩ := hrel sub (List.mem_cons_self _ _) htag
      have hb : boundRows orm q out sub = rows := by simp [boundRows, hrows]
      unfold relationRowsFor at hrows
      cases hf : (Scope.New out).FieldByName orm sub.preload with
      | none => simp [htag, hf, ih _ hrest, preloadExpectation]
      | some field =>
        rw [hf] at hrows
        simp only at hrows
        cases h1 : (indirect out).FieldByName sub.preload with
        | error e => rw [h1] at hrows; cases hrows
        | ok rVal =>
          rw [h1] at hrows
          simp only at hrows
          have hEQ := ExpectQuery_Returns adapter sub rows
          simp only [ne_eq, htag, not_false_eq_true, if_true, hrows]
          rw [hEQ, ih _ hrest]
          simp [preloadExpectation, htag, hf, hb]

/-- When the preload loop completes, the relation row-set of every tagged statement
exists. -/
theorem preloadLoop_inv (orm : ORM) (q : SqlmockQueryExpectation) (out : GoValue)
    (subQueries : List Stmt) (adapter adapter' : Adapter)
    (h : preloadLoop orm q (Scope.New out) (indirect out) adapter subQueries = .ok adapter') :
    ∀ sub ∈ subQueries, sub.preload ≠ "" → ∃ rows, relationRowsFor orm q out sub = .ok rows := by
  induction subQueries generalizing adapter with
  | nil => intro sub hsub; cases hsub
  | cons s rest ih =>
    unfold preloadLoop at h
    intro sub hsub htag
    by_cases hstag : s.preload = ""
    · simp only [ne_eq, hstag, not_true_eq_false, if_false] at h
      rcases List.mem_cons.mp hsub with hs | hs
      · subst hs; exact absurd hstag htag
      · exact ih adapter h sub hs htag
    · simp only [ne_eq, hstag, not_false_eq_true, if_true] at h
      cases hf : (Scope.New out).FieldByName orm s.preload with
      | none =>
        rw [hf] at h
        rcases List.mem_cons.mp hsub with hs | hs
        · subst hs; exact ⟨none, by simp [relationRowsFor, hf]⟩
        · exact ih adapter h sub hs htag
      | some field =>
        rw [hf] at h
        simp only at h
        cases h1 : (indirect out).FieldByName s.preload with
        | error e => rw [h1] at h; cases h
        | ok rVal =>
          rw [h1] at h
          simp only at h
          cases h2 : getRelationRows orm q rVal s.preload field.Relationship with
          | error e => rw [h2] at h; cases h
          | ok rows =>
            rw [h2] at h
            simp only at h
            rcases List.mem_cons.mp hsub with hs | hs
            · subst hs; exact ⟨rows, by simp [relationRowsFor, hf, h1, h2]⟩
            · exact ih _ h sub hs htag

/-- The method `Returns` after the replay of the deferred calls: the destination
row-set, then the preload loop on the adapter holding the main expectation. -/
theorem returns_eq (orm : ORM) (q q₁ : SqlmockQueryExpectation) (out : GoValue)
    (destQuery : Stmt) (subQueries : List Stmt)
    (hcall : callMethods orm (beginReturns q out) = .ok q₁)
    (hstmts : q₁.parent.recorder.stmts = destQuery :: subQueries) :
    Returns orm q out
      = match getDestRows orm q₁ out with
        | .error e => .error e
        | .ok rows =>
          match preloadLoop orm q₁ (Scope.New out) (indirect out)
              { expectations := q.parent.adapter.expectations
                  ++ [{ query := destQuery, rows := some rows }] } subQueries with
          | .error e => .error e
          | .ok adapter =>
            .ok { q₁ with parent := ({ q₁.parent with adapter := adapter } : Expecter).reset } := by
  have hadapter : q₁.parent.adapter = q.parent.adapter := by
    rw [(callMethods_frame orm _ q₁ hcall).2, beginReturns_adapter]
  unfold Returns
  simp only [hcall, hstmts]
  cases hd : getDestRows orm q₁ out with
  | error e => rfl
  | ok rows =>
    simp only
    rw [ExpectQuery_Returns, hadapter]
    cases subQueries with
    | nil => simp [preloadLoop]
    | cons sub rest => simp

/-- A model instance whose normal values all pass the converter's check is accepted. -/
theorem accepts_of_all (orm : ORM) (v : GoValue)
    (h : ((orm.normalValues v).all fun x => (driver.ConvertValue x).isSome) = true) :
    orm.Accepts v := by
  intro x hx
  have hx' := List.all_eq_true.mp h x hx
  intro hnone
  rw [hnone] at hx'
  cases hx'

/-! ## The claims -/

/-- C1 fails as stated: the record `&Big{ID: 1 << 63}` has only a normal column, yet
`getDestRows` aborts on it, the driver rejecting a `uint64` with the high bit set. -/
theorem getDestRows_struct_counterexample :
    ¬ ∃ rows, getDestRows exampleORM
        { freshExpectation [mainStmt] with scope := some (Scope.New (.ptr bigB)) } (.ptr bigB)
      = .ok rows := by
  rintro ⟨rows, h⟩
  have h' : getDestRows exampleORM
      { freshExpectation [mainStmt] with scope := some (Scope.New (.ptr bigB)) } (.ptr bigB)
      = .error .addRowConvert := rfl
  rw [h'] at h
  cases h

/-- C1 (amended). For an expected output that is a struct `S` or a pointer to it, the
driver accepting the values of the normal fields of `S`, `getDestRows`, called as
`Returns` calls it (the scope of the receiver is the scope of the output), yields the
row-set whose columns are the column names of the normal fields of `S` in schema order
and whose single row holds the values of those fields, as the driver converts them,
in that order. -/
theorem getDestRows_struct (orm : ORM) (q : SqlmockQueryExpectation) (out S : GoValue)
    (hS : indirect out = S) (hk : S.Kind = .Struct) (hacc : orm.Accepts S) :
    getDestRows orm { q with scope := some (Scope.New out) } out
      = .ok { cols := orm.normalColumns S.typeOf, rows := [orm.driverValues S] } := by
  subst hS
  exact destRows_of_struct orm _ out rfl hk hacc

/-- C1 (amended), on the user `&User{ID: 1, Name: "a"}`: columns `[id, name]` and the
single row `[1, "a"]`. -/
theorem getDestRows_struct_witness :
    getDestRows exampleORM
        { freshExpectation [mainStmt] with scope := some (Scope.New (.ptr userA)) } (.ptr userA)
      = .ok { cols := ["id", "name"], rows := [[.int .Int64 1, .string "a"]] } :=
  getDestRows_struct exampleORM (freshExpectation [mainStmt]) (.ptr userA) userA rfl rfl
    (accepts_of_all exampleORM userA rfl)

/-- C2 fails as stated: on the slice `[]Big{{ID: 1 << 63}}` of one model instance
`getDestRows` produces no row-set. -/
theorem getDestRows_slice_counterexample :
    ¬ ∃ rows, getDestRows exampleORM (freshExpectation [mainStmt]) (.slice bigType [bigB])
        = .ok rows := by
  rintro ⟨rows, h⟩
  have h' : getDestRows exampleORM (freshExpectation [mainStmt]) (.slice bigType [bigB])
      = .error .addRowConvert := rfl
  rw [h'] at h
  cases h

/-- C2 (amended). For an expected output that is a slice of `N` elements of the slice's
element type (or a pointer to such a slice; a nil slice has no element), the driver
accepting the normal values of every element, `getDestRows` yields a row-set with the
normal columns of the element type and exactly `N` rows, the `i`-th row being the
values of the normal fields of the `i`-th element as the driver converts them. -/
theorem getDestRows_slice (orm : ORM) (q : SqlmockQueryExpectation) (out : GoValue)
    (elem : GoType) (elems : List GoValue)
    (hout : indirect out = .slice elem elems ∨ (indirect out = .nilSlice elem ∧ elems = []))
    (hty : ∀ e ∈ elems, e.typeOf = elem)
    (hacc : ∀ e ∈ elems, orm.Accepts e) :
    ∃ rows, getDestRows orm q out = .ok rows
      ∧ rows.cols = orm.normalColumns elem
      ∧ rows.rows.length = elems.length
      ∧ rows.rows = elems.map orm.driverValues :=
  ⟨_, destRows_of_slice orm q out elem elems hout hty hacc, rfl, by simp, rfl⟩

/-- C2 (amended), on a slice of two users. -/
theorem getDestRows_slice_witness :
    ∃ rows, getDestRows exampleORM (freshExpectation [mainStmt]) (.slice userType [userA, userB])
        = .ok rows
      ∧ rows.cols = ["id", "name"]
      ∧ rows.rows.length = 2
      ∧ rows.rows = [[.int .Int64 1, .string "a"], [.int .Int64 2, .string "b"]] :=
  getDestRows_slice exampleORM (freshExpectation [mainStmt]) (.slice userType [userA, userB])
    userType [userA, userB] (Or.inl rfl)
    (by intro e he; simp at he; rcases he with h | h <;> rw [h] <;> rfl)
    (by
      intro e he
      simp only [List.mem_cons, List.mem_singleton, List.not_mem_nil, or_false] at he
      rcases he with h | h <;> rw [h] <;> exact accepts_of_all exampleORM _ rfl)

/-- C3. For an expected output that is nil (the nil interface, or a nil pointer),
`getDestRows` does not abort and returns the row-set with the single column `count`
and no row. -/
theorem getDestRows_nil (orm : ORM) (q : SqlmockQueryExpectation) (out : GoValue)
    (hout : indirect out = .invalid) :
    getDestRows orm q out = .ok { cols := ["count"], rows := [] } :=
  destRows_of_nil orm q out hout

/-- C3, on the nil interface. -/
theorem getDestRows_nil_witness :
    getDestRows exampleORM (freshExpectation [mainStmt]) .invalid
      = .ok { cols := ["count"], rows := [] } :=
  getDestRows_nil exampleORM (freshExpectation [mainStmt]) .invalid rfl

/-- C4. On an `int8` and on a `uint8`, whatever the number, `getDestRows` aborts with
the panic of its default case: the two kinds are missing from the list of integer
kinds of line 212. -/
theorem getDestRows_int8_uint8 (orm : ORM) (q : SqlmockQueryExpectation) (n : Int) :
    getDestRows orm q (.int .Int8 n) = .error (.unsupportedKind .Int8)
      ∧ getDestRows orm q (.int .Uint8 n) = .error (.unsupportedKind .Uint8) :=
  ⟨rfl, rfl⟩

/-- C7 fails as stated: a has_one field holding the non-zero record `Big{ID: 1 << 63}`
gives no row-set, `getRelationRows` aborting on the value the driver rejects. -/
theorem getRelationRows_has_one_counterexample :
    reflect.DeepEqual bigB bigType.zero = false
    ∧ ¬ ∃ rows, getRelationRows exampleORM (freshExpectation []) bigB "Big"
        (some { Kind := "has_one", JoinTableHandler := none })
      = .ok rows := by
  refine ⟨rfl, ?_⟩
  rintro ⟨rows, h⟩
  have h' : getRelationRows exampleORM (freshExpectation []) bigB "Big"
      (some { Kind := "has_one", JoinTableHandler := none }) = .error .addRowConvert := rfl
  rw [h'] at h
  cases h

/-- C7 (amended). For a has_one relation and a valid field value, `getRelationRows`
returns the row-set whose columns are the normal columns of the field's model; it has
no row when the value is deeply equal to the zero value of its type, and otherwise,
the driver accepting the normal values of the value, exactly one row, those values as
the driver converts them. -/
theorem getRelationRows_has_one (orm : ORM) (q : SqlmockQueryExpectation) (rVal : GoValue)
    (fieldName : String) (relation : Relationship)
    (hkind : relation.Kind = "has_one") (hvalid : rVal.Kind ≠ .Invalid)
    (hacc : reflect.DeepEqual rVal rVal.typeOf.zero = false → orm.Accepts rVal) :
    getRelationRows orm q rVal fieldName (some relation)
      = .ok (some { cols := orm.normalColumns rVal.typeOf,
                    rows := if reflect.DeepEqual rVal rVal.typeOf.zero then []
                            else [orm.driverValues rVal] }) :=
  relationRows_of_has_one orm q rVal fieldName relation hkind hvalid hacc

/-- C7 (amended), on the profile of the member (one row) and on the zero profile (no
row). -/
theorem getRelationRows_has_one_witness :
    getRelationRows exampleORM (freshExpectation [])
        (.struct "Profile" [("ID", .int .Uint 3), ("Bio", .string "bio"), ("MemberID", .int .Uint 7)])
        "Profile" (some { Kind := "has_one", JoinTableHandler := none })
      = .ok (some { cols := ["id", "bio", "member_id"],
                    rows := [[.int .Int64 3, .string "bio", .int .Int64 7]] })
    ∧ getRelationRows exampleORM (freshExpectation []) profileType.zero
        "Profile" (some { Kind := "has_one", JoinTableHandler := none })
      = .ok (some { cols := ["id", "bio", "member_id"], rows := [] }) :=
  ⟨getRelationRows_has_one exampleORM (freshExpectation []) _ "Profile"
      { Kind := "has_one", JoinTableHandler := none } rfl (by decide)
      (fun _ => accepts_of_all exampleORM _ rfl),
   getRelationRows_has_one exampleORM (freshExpectation []) profileType.zero "Profile"
      { Kind := "has_one", JoinTableHandler := none } rfl (by decide)
      (fun h => absurd h (by decide))⟩

/-- C5. For a many_to_many relation whose join table does not have exactly two
foreign-key columns in all, and a field holding at least one element, the first row
`getRelationRows` builds has two values more than the element has normal fields while
the row-set has one column more per foreign key: the counts differ, `AddRow` refuses
the row and `getRelationRows` aborts. -/
theorem getRelationRows_join_keys_mismatch (orm : ORM) (q : SqlmockQueryExpectation)
    (rVal : GoValue) (fieldName : String) (relation : Relationship) (joinTable : JoinTableHandler)
    (qscope : Scope) (elem : GoType) (e : GoValue) (rest : List GoValue)
    (hkind : relation.Kind = "many_to_many")
    (hjoin : relation.JoinTableHandler = some joinTable)
    (hkeys : joinTable.Source.ForeignKeys.length + joinTable.Destination.ForeignKeys.length ≠ 2)
    (hq : q.scope = some qscope)
    (hr : rVal = .slice elem (e :: rest)) (hty : e.typeOf = elem) :
    (orm.normalValues e ++
        [qscope.PrimaryKeyValue orm,
         (Scope.mk (reflect.New joinTable.Destination.ModelType)).PrimaryKeyValue orm]).length
      ≠ (orm.normalColumns elem ++ joinTable.Source.keyColumns
          ++ joinTable.Destination.keyColumns).length
    ∧ getRelationRows orm q rVal fieldName (some relation) = .error .addRowValues := by
  have hlen : (orm.normalValues e).length + 2
      ≠ (orm.normalColumns elem).length + (joinTable.Source.ForeignKeys.length
          + joinTable.Destination.ForeignKeys.length) := by
    rw [normalValues_length, hty]
    omega
  constructor
  · simp only [List.length_append, JoinTableSource.keyColumns, List.length_map, List.length_cons,
      List.length_nil]
    omega
  · subst hr
    unfold getRelationRows
    simp [hkind, hjoin, GoValue.Type, GoValue.typeOf, GoType.Elem, bind, Except.bind,
      relationColumns_eq, appendForeignKeys_eq, GoValue.Interface, GoType.zero, reflect.DeepEqual,
      GoValue.elements, pure, Except.pure, sqlmock.NewRows, addJoinTableRows, hq,
      getRowForFields_Fields, Rows.AddRow, hlen]

/-- C5, on the groups of the member: a join table with two source keys and one
destination key, five columns against four values. -/
theorem getRelationRows_join_keys_mismatch_witness :
    ([GoValue.int .Uint 6, .string "g", .int .Uint 7, .int .Uint 0] : List GoValue).length
      ≠ (["id", "label", "member_id", "member_name", "tag_id"] : List String).length
    ∧ getRelationRows exampleORM
        { freshExpectation [] with scope := some (Scope.New (.ptr memberM)) }
        (.slice tagType [tag 6 "g"]) "Groups"
        (some { Kind := "many_to_many", JoinTableHandler := some memberGroups })
      = .error .addRowValues :=
  getRelationRows_join_keys_mismatch exampleORM
    { freshExpectation [] with scope := some (Scope.New (.ptr memberM)) }
    (.slice tagType [tag 6 "g"]) "Groups"
    { Kind := "many_to_many", JoinTableHandler := some memberGroups } memberGroups
    (Scope.New (.ptr memberM)) tagType (tag 6 "g") [] rfl rfl (by decide) rfl rfl rfl

/-- C8. On the groups of the member, a many_to_many field holding one element whose
join table has three foreign-key columns (two on the source side), `getRelationRows`
aborts on the first row and produces no row-set at all, where one row of the
element's values followed by the two keys is due. -/
theorem getRelationRows_many_to_many_aborts :
    ¬ ∃ rows, getRelationRows exampleORM
        { freshExpectation [] with scope := some (Scope.New (.ptr memberM)) }
        (.slice tagType [tag 6 "g"]) "Groups"
        (some { Kind := "many_to_many", JoinTableHandler := some memberGroups })
      = .ok rows := by
  rintro ⟨rows, h⟩
  have h' : getRelationRows exampleORM
        { freshExpectation [] with scope := some (Scope.New (.ptr memberM)) }
        (.slice tagType [tag 6 "g"]) "Groups"
        (some { Kind := "many_to_many", JoinTableHandler := some memberGroups })
      = .error .addRowValues := rfl
  rw [h'] at h
  cases h

/-- C6 fails as stated: with the non-empty list `[main, preload="Posts"]` and a slice of
members as expected output, `Returns` aborts in the preload loop and completes no
registration. -/
theorem Returns_registers_counterexample :
    ¬ ∃ q', Returns exampleORM (freshExpectation [mainStmt, preloadStmt "Posts"])
        (.slice memberType [memberM]) = .ok q' := by
  rintro ⟨q', h⟩
  have h' : Returns exampleORM (freshExpectation [mainStmt, preloadStmt "Posts"])
      (.slice memberType [memberM]) = .error (.reflectKind .Slice) := rfl
  rw [h'] at h
  cases h

/-- C6 (amended). Let the replay of the deferred calls complete and leave the recorded
statement list `destQuery :: subQueries`. `Returns` completes exactly when the row-sets
it binds exist (`getDestRows` returns for the expected output, and for every later
statement with a non-empty preload tag the relation row-set is computed without a
panic). When it completes it has added to the adapter, in recorded order, exactly:
one expectation for the first statement, bound to the `getDestRows` row-set; and for
each later statement one expectation, bound to the `getRelationRows` row-set of its
field, iff the statement has a non-empty preload tag resolving to a field of the
schema. -/
theorem Returns_registers (orm : ORM) (q q₁ : SqlmockQueryExpectation) (out : GoValue)
    (destQuery : Stmt) (subQueries : List Stmt)
    (hcall : callMethods orm (beginReturns q out) = .ok q₁)
    (hstmts : q₁.parent.recorder.stmts = destQuery :: subQueries) :
    ((∃ q', Returns orm q out = .ok q') ↔ RowSetsExist orm q₁ out subQueries)
    ∧ ∀ q', Returns orm q out = .ok q' →
        ∃ destRows, getDestRows orm q₁ out = .ok destRows
          ∧ (∀ sub ∈ subQueries, sub.preload ≠ "" →
              relationRowsFor orm q₁ out sub = .ok (boundRows orm q₁ out sub))
          ∧ q'.parent.adapter.expectations
              = q.parent.adapter.expectations
                  ++ { query := destQuery, rows := some destRows }
                    :: subQueries.filterMap
                        (preloadExpectation orm out (boundRows orm q₁ out)) := by
  have heq := returns_eq orm q q₁ out destQuery subQueries hcall hstmts
  have hforward : ∀ q', Returns orm q out = .ok q' →
      ∃ destRows, getDestRows orm q₁ out = .ok destRows
        ∧ (∀ sub ∈ subQueries, sub.preload ≠ "" →
            ∃ rows, relationRowsFor orm q₁ out sub = .ok rows)
        ∧ q'.parent.adapter.expectations
            = q.parent.adapter.expectations
                ++ { query := destQuery, rows := some destRows }
                  :: subQueries.filterMap
                      (preloadExpectation orm out (boundRows orm q₁ out)) := by
    intro q' hq'
    rw [heq] at hq'
    cases hd : getDestRows orm q₁ out with
    | error e => rw [hd] at hq'; cases hq'
    | ok destRows =>
      rw [hd] at hq'
      simp only at hq'
      cases hl : preloadLoop orm q₁ (Scope.New out) (indirect out)
          { expectations := q.parent.adapter.expectations
              ++ [{ query := destQuery, rows := some destRows }] } subQueries with
      | error e => rw [hl] at hq'; cases hq'
      | ok adapter =>
        have hrel := preloadLoop_inv orm q₁ out subQueries _ adapter hl
        rw [preloadLoop_adds orm q₁ out subQueries _ hrel] at hl
        rw [preloadLoop_adds orm q₁ out subQueries _ hrel] at hq'
        simp only at hq'
        cases hq'
        exact ⟨destRows, rfl, hrel, by simp [Expecter.reset]⟩
  refine ⟨⟨?_, ?_⟩, ?_⟩
  · rintro ⟨q', hq'⟩
    obtain ⟨destRows, hd, hrel, _⟩ := hforward q' hq'
    exact ⟨⟨destRows, hd⟩, hrel⟩
  · rintro ⟨⟨destRows, hd⟩, hrel⟩
    rw [heq, hd]
    simp only
    rw [preloadLoop_adds orm q₁ out subQueries _ hrel]
    exact ⟨_, rfl⟩
  · intro q' hq'
    obtain ⟨destRows, hd, hrel, hexp⟩ := hforward q' hq'
    refine ⟨destRows, hd, ?_, hexp⟩
    intro sub hsub htag
    obtain ⟨rows, hrows⟩ := hrel sub hsub htag
    simp [boundRows, hrows]

/-- C6 (amended), on a member with two posts and the statements `[main,
preload="Posts"]`, after the replay of a deferred `First`: `Returns` completes with one
row for the main statement and two rows for the preload statement. -/
theorem Returns_registers_witness :
    ∃ q', Returns exampleORM
          (deferredExpectation [mainStmt, preloadStmt "Posts"] [("First", [.ptr memberM])])
          (.ptr memberM) = .ok q'
      ∧ q'.parent.adapter.expectations
          = [{ query := mainStmt, rows := some memberRows },
             { query := preloadStmt "Posts", rows := some postRows }] := by
  have h := Returns_registers exampleORM
    (deferredExpectation [mainStmt, preloadStmt "Posts"] [("First", [.ptr memberM])])
    _ (.ptr memberM) mainStmt [preloadStmt "Posts"] rfl rfl
  obtain ⟨q', hq'⟩ := h.1.mpr ⟨⟨memberRows, rfl⟩, by
    intro sub hsub _
    rw [List.mem_singleton] at hsub
    subst hsub
    exact ⟨some postRows, rfl⟩⟩
  obtain ⟨destRows, hd, _, hexp⟩ := h.2 q' hq'
  obtain rfl : memberRows = destRows := Except.ok.inj hd
  exact ⟨q', hq', hexp⟩

/-- C9 fails as stated: with the statements `[main, preload="Company"]` and a member
whose `Company` field has a belongs_to relationship, `Returns` completes and the
adapter holds a query expectation for the preload statement, with no row-set bound. -/
theorem Returns_other_relationship_counterexample :
    ∃ q', Returns exampleORM (freshExpectation [mainStmt, preloadStmt "Company"]) (.ptr memberM)
        = .ok q'
      ∧ q'.parent.adapter.expectations
          = [{ query := mainStmt, rows := some memberRows },
             { query := preloadStmt "Company", rows := none }] :=
  ⟨_, rfl, rfl⟩

/-- C9 (amended). Let the replay of the deferred calls complete and leave the recorded
statement list `destQuery :: subQueries`, and let `sub` be a later statement with a
non-empty preload tag that resolves to a field whose relationship is of none of the
kinds has_one, has_many, many_to_many, the expected output being a struct or a pointer
to one. When the main row-set and the relation row-sets of the other statements
exist, `Returns` completes; it registers a query expectation against `sub` like
against any other resolving statement, and binds no row-set to it. -/
theorem Returns_other_relationship (orm : ORM) (q q₁ : SqlmockQueryExpectation) (out : GoValue)
    (destQuery : Stmt) (subQueries : List Stmt) (destRows : Rows)
    (sub : Stmt) (field : Field) (relation : Relationship)
    (hcall : callMethods orm (beginReturns q out) = .ok q₁)
    (hstmts : q₁.parent.recorder.stmts = destQuery :: subQueries)
    (hdest : getDestRows orm q₁ out = .ok destRows)
    (hsub : sub ∈ subQueries) (htag : sub.preload ≠ "")
    (hfield : (Scope.New out).FieldByName orm sub.preload = some field)
    (hrelation : field.Relationship = some relation)
    (hkind : relation.Kind ≠ "has_one" ∧ relation.Kind ≠ "has_many"
      ∧ relation.Kind ≠ "many_to_many")
    (hstruct : (indirect out).Kind = .Struct)
    (hothers : ∀ s ∈ subQueries, s ≠ sub → s.preload ≠ "" →
      ∃ rows, relationRowsFor orm q₁ out s = .ok rows) :
    ∃ q', Returns orm q out = .ok q'
      ∧ q'.parent.adapter.expectations
          = q.parent.adapter.expectations
              ++ { query := destQuery, rows := some destRows }
                :: subQueries.filterMap (preloadExpectation orm out (boundRows orm q₁ out))
      ∧ { query := sub, rows := none } ∈ q'.parent.adapter.expectations := by
  have hsubrows : relationRowsFor orm q₁ out sub = .ok none := by
    unfold relationRowsFor
    rw [hfield]
    simp only
    rw [FieldByName_struct out sub.preload hstruct, hrelation]
    exact relationRows_of_other_kind orm q₁ _ sub.preload relation hkind.1 hkind.2.1 hkind.2.2
  have hbound : boundRows orm q₁ out sub = none := by simp [boundRows, hsubrows]
  have hrel : ∀ s ∈ subQueries, s.preload ≠ "" →
      ∃ rows, relationRowsFor orm q₁ out s = .ok rows := by
    intro s hs hstag
    by_cases hss : s = sub
    · subst hss; exact ⟨none, hsubrows⟩
    · exact hothers s hs hss hstag
  have heq := returns_eq orm q q₁ out destQuery subQueries hcall hstmts
  rw [hdest] at heq
  simp only at heq
  rw [preloadLoop_adds orm q₁ out subQueries _ hrel] at heq
  refine ⟨_, heq, by simp [Expecter.reset], ?_⟩
  simp only [Expecter.reset, List.append_assoc, List.singleton_append]
  apply List.mem_append_right
  apply List.mem_cons_of_mem
  rw [List.mem_filterMap]
  exact ⟨sub, hsub, by simp [preloadExpectation, htag, hfield, hbound]⟩

/-- C9 (amended), on the member and the statements `[main, preload="Company",
preload="Posts"]`: three expectations, the one of `Company` without a row-set. -/
theorem Returns_other_relationship_witness :
    ∃ q', Returns exampleORM
          (freshExpectation [mainStmt, preloadStmt "Company", preloadStmt "Posts"]) (.ptr memberM)
        = .ok q'
      ∧ q'.parent.adapter.expectations
          = [{ query := mainStmt, rows := some memberRows },
             { query := preloadStmt "Company", rows := none },
             { query := preloadStmt "Posts", rows := some postRows }]
      ∧ { query := preloadStmt "Company", rows := none } ∈ q'.parent.adapter.expectations := by
  have h := Returns_other_relationship exampleORM
    (freshExpectation [mainStmt, preloadStmt "Company", preloadStmt "Posts"]) _ (.ptr memberM)
    mainStmt [preloadStmt "Company", preloadStmt "Posts"] memberRows
    (preloadStmt "Company")
    { toStructField := association "Company" "company"
        { Kind := "belongs_to", JoinTableHandler := none },
      Field := companyType.zero }
    { Kind := "belongs_to", JoinTableHandler := none }
    rfl rfl rfl (by simp) (by decide) rfl rfl (by decide) rfl
    (by
      intro s hs hne _
      have hs' : s = preloadStmt "Posts" := by
        simp only [List.mem_cons, List.mem_singleton, List.not_mem_nil, or_false] at hs
        rcases hs with h | h
        · exact absurd h hne
        · exact h
      subst hs'
      exact ⟨some postRows, rfl⟩)
  exact h

/-- C10 fails as stated: on a struct output `Returns` aborts on an empty statement
list, on a deferred call naming no method of the ORM handle, and on a preload tag
naming a field without relationship metadata. -/
theorem Returns_completes_counterexample :
    Returns exampleORM (freshExpectation []) (.ptr userA) = .error .indexOutOfRange
    ∧ Returns exampleORM (deferredExpectation [mainStmt] [("Missing", [.ptr userA])]) (.ptr userA)
        = .error .reflectZeroValue
    ∧ Returns exampleORM (freshExpectation [mainStmt, preloadStmt "Name"]) (.ptr memberM)
        = .error .nilPointerDereference :=
  ⟨rfl, rfl, rfl⟩

/-- C10 (amended). `Returns` completes without aborting when every deferred call fits
the ORM handle, the expected output is nil, a struct or a slice of typed elements
whose normal values the driver accepts, or an integer of a kind listed at line 212,
and the statement list the replay leaves is not empty and every later statement whose
non-empty preload tag resolves on the schema finds a struct output and names a field
with relationship metadata whose value fits the kind of the relationship. -/
theorem Returns_completes (orm : ORM) (q : SqlmockQueryExpectation) (out : GoValue)
    (hcalls : CallmapFits orm q.parent.callmap)
    (hout : SupportedOutput orm out)
    (hstmts : ∀ q₁, callMethods orm (beginReturns q out) = .ok q₁ →
      StatementsFit orm out q₁.parent.recorder.stmts) :
    ∃ q', Returns orm q out = .ok q' := by
  obtain ⟨q₁, hcall⟩ := callMethods_succeeds orm (beginReturns q out) (Scope.New out)
    (beginReturns_scope q out) (by rw [beginReturns_callmap]; exact hcalls)
  have hq : q₁.scope = some (Scope.New out) := by
    rw [(callMethods_frame orm _ q₁ hcall).1, beginReturns_scope]
  obtain ⟨hne, hpre⟩ := hstmts q₁ hcall
  obtain ⟨destQuery, subQueries, hlist⟩ := List.exists_cons_of_ne_nil hne
  rw [hlist] at hpre
  simp only [List.tail_cons] at hpre
  obtain ⟨destRows, hdest⟩ := destRows_of_supported orm q₁ out hq hout
  have hrel : ∀ sub ∈ subQueries, sub.preload ≠ "" →
      ∃ rows, relationRowsFor orm q₁ out sub = .ok rows := by
    intro sub hsub htag
    unfold relationRowsFor
    cases hf : (Scope.New out).FieldByName orm sub.preload with
    | none => exact ⟨none, rfl⟩
    | some field =>
      obtain ⟨hstruct, relation, hrelation, hfit⟩ := hpre sub hsub htag field hf
      simp only
      rw [FieldByName_struct out sub.preload hstruct, hrelation]
      exact relationRows_of_fits orm q₁ out _ sub.preload relation hq hfit
  have heq := returns_eq orm q q₁ out destQuery subQueries hcall hlist
  rw [hdest] at heq
  simp only at heq
  rw [preloadLoop_adds orm q₁ out subQueries _ hrel] at heq
  exact ⟨_, heq⟩

/-- C10 (amended), on the member with the deferred calls `First` and `Preload`, an
untagged statement, the preload of its posts and a preload tag that names no field. -/
theorem Returns_completes_witness :
    ∃ q', Returns exampleORM
        (deferredExpectation [mainStmt, mainStmt, preloadStmt "Posts", preloadStmt "Nothing"]
          [("First", [.ptr memberM]), ("Preload", [])])
        (.ptr memberM) = .ok q' :=
  Returns_completes exampleORM
    (deferredExpectation [mainStmt, mainStmt, preloadStmt "Posts", preloadStmt "Nothing"]
      [("First", [.ptr memberM]), ("Preload", [])])
    (.ptr memberM)
    (by
      intro call hcall
      simp only [deferredExpectation, List.mem_cons, List.mem_singleton, List.not_mem_nil,
        or_false] at hcall
      rcases hcall with h | h
      · subst h; exact ⟨.variadic, rfl, fun _ => by simp⟩
      · subst h; exact ⟨.other, rfl, fun h => absurd rfl h⟩)
    (accepts_of_all exampleORM memberM rfl)
    (by
      intro q₁ hq₁
      obtain rfl : _ = q₁ := Except.ok.inj hq₁
      refine ⟨(show ([mainStmt, mainStmt, preloadStmt "Posts", preloadStmt "Nothing"] : List Stmt)
        ≠ [] from by simp), ?_⟩
      intro sub hsub htag field hf
      have hsub' : sub ∈ [mainStmt, preloadStmt "Posts", preloadStmt "Nothing"] := hsub
      simp only [List.mem_cons, List.mem_singleton, List.not_mem_nil, or_false] at hsub'
      rcases hsub' with h | h | h
      · subst h; exact absurd rfl htag
      · subst h
        obtain rfl : _ = field := Option.some.inj hf
        refine ⟨rfl, _, rfl, ?_⟩
        show IsTypedSlice (GoValue.slice postType [post 1 "p", post 2 "q"]) ∧ _
        refine ⟨?_, ?_⟩
        · intro e he
          simp only [List.mem_cons, List.mem_singleton, List.not_mem_nil, or_false] at he
          rcases he with h | h <;> rw [h] <;> rfl
        · intro elems hel e he
          obtain rfl : [post 1 "p", post 2 "q"] = elems := Except.ok.inj hel
          simp only [List.mem_cons, List.mem_singleton, List.not_mem_nil, or_false] at he
          rcases he with h | h <;> rw [h] <;> exact accepts_of_all exampleORM _ rfl
      · subst h
        have hn : (Scope.New (GoValue.ptr memberM)).FieldByName exampleORM
            (preloadStmt "Nothing").preload = none := rfl
        rw [hn] at hf
        cases hf)

end GormExpect
